import Mathlib

/-!
Verification of the Nevoton Komfort device client (`api.py`).

A shallow embedding of the device-communication client in
`custom_components/nevoton_komfort/api.py`, together with proofs of the
specified properties.

Modelling conventions:
* JSON values are modelled by the inductive type `Json`.  Numbers are
  modelled as integers (the device protocol has no floating-point
  parameters; the claims under verification only involve integer codes),
  so the JSON fragment embedded here is the float-free fragment.
* Python dictionaries decoded from JSON are association lists; a lookup
  returns the value of the *last* occurrence of a key, matching the
  behaviour of `json.loads` for duplicate keys.
* Python runtime exceptions that are outside the client's error taxonomy
  (`TypeError`, `AttributeError`, `KeyError`) are modelled by `Option`
  (`none` = such an exception) or by a dedicated `pyExn` outcome.
-/

/-- JSON values (float-free fragment; see module docstring). -/
inductive Json where
  | null : Json
  | bool (b : Bool) : Json
  | num (n : Int) : Json
  | str (s : String) : Json
  | arr (elems : List Json) : Json
  | obj (entries : List (String × Json)) : Json

mutual

/-- Boolean equality on JSON values. -/
def Json.beqv : Json → Json → Bool
  | .null, .null => true
  | .bool a, .bool b => a = b
  | .num a, .num b => a = b
  | .str a, .str b => a = b
  | .arr a, .arr b => Json.beqvL a b
  | .obj a, .obj b => Json.beqvO a b
  | _, _ => false

/-- Boolean equality on JSON arrays. -/
def Json.beqvL : List Json → List Json → Bool
  | [], [] => true
  | x :: xs, y :: ys => Json.beqv x y && Json.beqvL xs ys
  | _, _ => false

/-- Boolean equality on JSON object entry lists. -/
def Json.beqvO : List (String × Json) → List (String × Json) → Bool
  | [], [] => true
  | (k, v) :: xs, (k', v') :: ys => k = k' && Json.beqv v v' && Json.beqvO xs ys
  | _, _ => false

end

mutual

theorem Json.beqv_iff : ∀ a b : Json, Json.beqv a b = true ↔ a = b
  | .null, .null => by simp [Json.beqv]
  | .null, .bool _ | .null, .num _ | .null, .str _ | .null, .arr _ | .null, .obj _ => by
    simp [Json.beqv]
  | .bool _, .null | .bool _, .num _ | .bool _, .str _ | .bool _, .arr _ | .bool _, .obj _ => by
    simp [Json.beqv]
  | .bool a, .bool b => by simp [Json.beqv]
  | .num _, .null | .num _, .bool _ | .num _, .str _ | .num _, .arr _ | .num _, .obj _ => by
    simp [Json.beqv]
  | .num a, .num b => by simp [Json.beqv]
  | .str _, .null | .str _, .bool _ | .str _, .num _ | .str _, .arr _ | .str _, .obj _ => by
    simp [Json.beqv]
  | .str a, .str b => by simp [Json.beqv]
  | .arr _, .null | .arr _, .bool _ | .arr _, .num _ | .arr _, .str _ | .arr _, .obj _ => by
    simp [Json.beqv]
  | .arr a, .arr b => by simp [Json.beqv, Json.beqvL_iff a b]
  | .obj _, .null | .obj _, .bool _ | .obj _, .num _ | .obj _, .str _ | .obj _, .arr _ => by
    simp [Json.beqv]
  | .obj a, .obj b => by simp [Json.beqv, Json.beqvO_iff a b]

theorem Json.beqvL_iff : ∀ a b : List Json, Json.beqvL a b = true ↔ a = b
  | [], [] => by simp [Json.beqvL]
  | [], _ :: _ => by simp [Json.beqvL]
  | _ :: _, [] => by simp [Json.beqvL]
  | x :: xs, y :: ys => by
    simp [Json.beqvL, Json.beqv_iff x y, Json.beqvL_iff xs ys]

theorem Json.beqvO_iff : ∀ a b : List (String × Json), Json.beqvO a b = true ↔ a = b
  | [], [] => by simp [Json.beqvO]
  | [], _ :: _ => by simp [Json.beqvO]
  | _ :: _, [] => by simp [Json.beqvO]
  | (k, v) :: xs, (k', v') :: ys => by
    simp only [Json.beqvO, Bool.and_eq_true, decide_eq_true_eq, Json.beqv_iff v v',
      Json.beqvO_iff xs ys, List.cons.injEq, Prod.mk.injEq, and_assoc]

end

instance : DecidableEq Json := fun a b =>
  decidable_of_iff (Json.beqv a b = true) (Json.beqv_iff a b)

/-- Value of the last occurrence of key `k` in an association list,
mirroring how `json.loads` builds a `dict` (later duplicates win). -/
def pyLookup (kvs : List (String × Json)) (k : String) : Option Json :=
  match kvs with
  | [] => none
  | (k', v) :: rest =>
    match pyLookup rest k with
    | some w => some w
    | none => if k' = k then some v else none

/-- Python truthiness of a decoded JSON value (`if data:`). -/
def pyTruthy : Json → Bool
  | .null => false
  | .bool b => b
  | .num n => n ≠ 0
  | .str s => s ≠ ""
  | .arr xs => !xs.isEmpty
  | .obj kvs => !kvs.isEmpty

/-- `leadMatch a b` is true when `a` is an initial segment of `b`. -/
def leadMatch : List Char → List Char → Bool
  | [], _ => true
  | _ :: _, [] => false
  | a :: as, b :: bs => a = b && leadMatch as bs

/-- `hasSub needle hay` is true when `needle` occurs as a contiguous
run inside `hay` (Python substring membership). -/
def hasSub (needle : List Char) : List Char → Bool
  | [] => needle.isEmpty
  | c :: rest => leadMatch needle (c :: rest) || hasSub needle rest

/-- Python `k in v` for a string `k`; `none` models a `TypeError`
(membership test on a number, boolean or `None`). -/
def pyContains (v : Json) (k : String) : Option Bool :=
  match v with
  | .obj kvs => some (kvs.any (fun p => p.1 = k))
  | .arr xs => some (xs.any (fun x => Json.beqv x (Json.str k)))
  | .str s => some (hasSub k.data s.data)
  | _ => none

/-- Python `v[k]` for a string key `k`; `none` models a raised exception
(`TypeError` on non-dicts, `KeyError` on a missing key). -/
def pySubscript (v : Json) (k : String) : Option Json :=
  match v with
  | .obj kvs => pyLookup kvs k
  | _ => none

/-- Python `v[0]`; `none` models a raised exception (`TypeError` on
numbers, `KeyError` on a string-keyed dict, `IndexError` on `[]`). -/
def pyIndexZero (v : Json) : Option Json :=
  match v with
  | .arr (x :: _) => some x
  | .str s =>
    match s.data with
    | c :: _ => some (.str (String.mk [c]))
    | [] => none
  | _ => none

/-- Python `len(v)`; `none` models a `TypeError`. -/
def pyLen (v : Json) : Option Nat :=
  match v with
  | .arr xs => some xs.length
  | .obj kvs => some kvs.length
  | .str s => some s.length
  | _ => none

/-- Python `v.get(k, dflt)`; `none` models an `AttributeError` (`.get`
on a non-dict). -/
def pyGetMethod (v : Json) (k : String) (dflt : Json) : Option Json :=
  match v with
  | .obj kvs => some ((pyLookup kvs k).getD dflt)
  | _ => none

/-- Python `v == n` for an integer literal `n` (`True == 1`,
`False == 0`; strings and containers never equal a number). -/
def pyEqInt (v : Json) (n : Int) : Bool :=
  match v with
  | .num m => m = n
  | .bool b => (if b then (1 : Int) else 0) = n
  | _ => false

/-! ## JSON serialization

A model of Python's `json.dumps` with its default options (item
separator `", "`, key separator `": "`, `ensure_ascii=True`), restricted
to the float-free fragment.  It is the reference serializer for the
round-trip property of the payload-extraction step. -/

/-- Lowercase hexadecimal digit for `n < 16`. -/
def hexDigitCh (n : Nat) : Char :=
  if n < 10 then Char.ofNat (48 + n) else Char.ofNat (87 + n)

/-- Four lowercase hex digits of `n < 0x10000` (as in `\uXXXX`). -/
def hex4 (n : Nat) : List Char :=
  [hexDigitCh (n / 4096 % 16), hexDigitCh (n / 256 % 16),
   hexDigitCh (n / 16 % 16), hexDigitCh (n % 16)]

/-- Escape of one character inside a JSON string, as produced by
`json.dumps` with `ensure_ascii=True`: two-character shorthands for the
common control characters, printable ASCII kept literal, everything
else as `\uXXXX` (a surrogate pair for code points above `0xFFFF`). -/
def escChar (c : Char) : List Char :=
  if c = '"' then ['\\', '"']
  else if c = '\\' then ['\\', '\\']
  else if c.toNat = 8 then ['\\', 'b']
  else if c.toNat = 9 then ['\\', 't']
  else if c.toNat = 10 then ['\\', 'n']
  else if c.toNat = 12 then ['\\', 'f']
  else if c.toNat = 13 then ['\\', 'r']
  else if 32 ≤ c.toNat ∧ c.toNat ≤ 126 then [c]
  else if c.toNat < 65536 then '\\' :: 'u' :: hex4 c.toNat
  else
    '\\' :: 'u' :: hex4 (55296 + (c.toNat - 65536) / 1024) ++
      ('\\' :: 'u' :: hex4 (56320 + (c.toNat - 65536) % 1024))

/-- Serialized JSON string: quote, escaped characters, quote. -/
def encString (s : String) : List Char :=
  '"' :: (s.data.map escChar).flatten ++ ['"']

/-- Decimal digits of `n`, most significant first, accumulated
(fuel-indexed; `fuel` bounds the number of digits). -/
def natCharsF : Nat → Nat → List Char → List Char
  | 0, _, acc => acc
  | fuel + 1, n, acc =>
    if n = 0 then acc
    else natCharsF fuel (n / 10) (Char.ofNat (48 + n % 10) :: acc)

/-- Decimal representation of a natural number (Python `str(n)`). -/
def natChars (n : Nat) : List Char :=
  if n = 0 then ['0'] else natCharsF (n + 1) n []

/-- Decimal representation of an integer (Python `str(n)` /
`json.dumps(n)` for `int` values). -/
def intChars : Int → List Char
  | .ofNat n => natChars n
  | .negSucc m => '-' :: natChars (m + 1)

mutual

/-- Serialization of a JSON value, as by `json.dumps` with default
options (restricted to the float-free fragment). -/
def encVal : Json → List Char
  | .null => "null".data
  | .bool true => "true".data
  | .bool false => "false".data
  | .num n => intChars n
  | .str s => encString s
  | .arr xs => '[' :: encArrItems xs ++ [']']
  | .obj kvs => '{' :: encObjItems kvs ++ ['}']

/-- Array elements joined by `", "`. -/
def encArrItems : List Json → List Char
  | [] => []
  | [x] => encVal x
  | x :: y :: rest => encVal x ++ ',' :: ' ' :: encArrItems (y :: rest)

/-- Object entries `"key": value` joined by `", "`. -/
def encObjItems : List (String × Json) → List Char
  | [] => []
  | [(k, v)] => encString k ++ ':' :: ' ' :: encVal v
  | (k, v) :: e :: rest =>
    encString k ++ ':' :: ' ' :: encVal v ++ ',' :: ' ' :: encObjItems (e :: rest)

end

/-! ## JSON parsing

A model of Python's `json.loads` on the float-free fragment: the
grammar of RFC 8259 with strict control-character checking, `", "`-style
whitespace tolerance and integer numerals.  Fractional/exponent
numerals, `NaN`/`Infinity` and lone surrogate escapes (all outside the
modelled fragment, and never produced by the serializer above) are
rejected. -/

/-- JSON whitespace characters (` `, tab, newline, carriage return). -/
def isWsCh (c : Char) : Bool :=
  c.toNat = 32 || c.toNat = 9 || c.toNat = 10 || c.toNat = 13

/-- Skip JSON whitespace. -/
def skipWs : List Char → List Char
  | [] => []
  | c :: rest => if isWsCh c then skipWs rest else c :: rest

/-- Value of a hexadecimal digit (either case). -/
def hexVal (c : Char) : Option Nat :=
  if 48 ≤ c.toNat ∧ c.toNat ≤ 57 then some (c.toNat - 48)
  else if 97 ≤ c.toNat ∧ c.toNat ≤ 102 then some (c.toNat - 87)
  else if 65 ≤ c.toNat ∧ c.toNat ≤ 70 then some (c.toNat - 55)
  else none

/-- ASCII decimal digit test. -/
def isDigitCh (c : Char) : Bool := 48 ≤ c.toNat && c.toNat ≤ 57

/-- Numeric value of a list of decimal digits. -/
def digitsVal (ds : List Char) : Nat :=
  ds.foldl (fun a c => a * 10 + (c.toNat - 48)) 0

/-- Decode one string-escape sequence (the part after the backslash):
the decoded character and the number of characters consumed.  Handles
the shorthand escapes of `json.loads` and `\uXXXX`, including
surrogate pairs; `none` on a malformed escape or a lone surrogate. -/
def decodeEsc : List Char → Option (Char × Nat)
  | [] => none
  | e :: r0 =>
    if e = '"' then some ('"', 1)
    else if e = '\\' then some ('\\', 1)
    else if e = '/' then some ('/', 1)
    else if e = 'b' then some (Char.ofNat 8, 1)
    else if e = 'f' then some (Char.ofNat 12, 1)
    else if e = 'n' then some (Char.ofNat 10, 1)
    else if e = 'r' then some (Char.ofNat 13, 1)
    else if e = 't' then some (Char.ofNat 9, 1)
    else if e = 'u' then
      match r0 with
      | h1 :: h2 :: h3 :: h4 :: r =>
        match hexVal h1, hexVal h2, hexVal h3, hexVal h4 with
        | some a, some b, some c, some d =>
          let n := ((a * 16 + b) * 16 + c) * 16 + d
          if n < 55296 ∨ 57344 ≤ n then some (Char.ofNat n, 5)
          else if n < 56320 then
            match r with
            | x1 :: x2 :: g1 :: g2 :: g3 :: g4 :: _ =>
              if x1 = '\\' ∧ x2 = 'u' then
                match hexVal g1, hexVal g2, hexVal g3, hexVal g4 with
                | some a2, some b2, some c2, some d2 =>
                  let m := ((a2 * 16 + b2) * 16 + c2) * 16 + d2
                  if 56320 ≤ m ∧ m < 57344 then
                    some (Char.ofNat
                      (65536 + (n - 55296) * 1024 + (m - 56320)), 11)
                  else none
                | _, _, _, _ => none
              else none
            | _ => none
          else none
        | _, _, _, _ => none
      | _ => none
    else none

/-- Body of a JSON string after the opening quote: accumulate decoded
characters (in reverse) until the closing quote, decoding escapes via
`decodeEsc`; reject raw control characters and unterminated strings.
Fuel-indexed; each step consumes at least one input character. -/
def parseStrAux : Nat → List Char → List Char → Option (String × List Char)
  | 0, _, _ => none
  | _ + 1, _, [] => none
  | fuel + 1, acc, c :: rest =>
    if c = '"' then some (String.mk acc.reverse, rest)
    else if c = '\\' then
      match decodeEsc rest with
      | some (ch, k) => parseStrAux fuel (ch :: acc) (rest.drop k)
      | none => none
    else if c.toNat < 32 then none
    else parseStrAux fuel (c :: acc) rest

/-- Parse a JSON string body (after the opening quote). -/
def parseStr (l : List Char) : Option (String × List Char) :=
  parseStrAux (l.length + 1) [] l

/-- Does the remainder continue a numeral into a float (fraction or
exponent part)?  Floats are outside the modelled fragment. -/
def floatTail : List Char → Bool
  | c :: _ => c = '.' || c = 'e' || c = 'E'
  | [] => false

/-- A JSON integer numeral: optional minus, `0` or a nonzero-led digit
run.  A fractional or exponent continuation (a float numeral) is
outside the modelled fragment and rejected. -/
def parseNum (cs : List Char) : Option (Json × List Char) :=
  let p : Bool × List Char :=
    match cs with
    | c :: t => if c = '-' then (true, t) else (false, c :: t)
    | [] => (false, [])
  match p.2.takeWhile isDigitCh, p.2.dropWhile isDigitCh with
  | [], _ => none
  | d :: ds, rest =>
    if d = '0' ∧ ds ≠ [] then none
    else if floatTail rest then none
    else
      let n : Int := digitsVal (d :: ds)
      some (.num (if p.1 then -n else n), rest)

mutual

/-- One JSON value (fuel-indexed recursive-descent decoder). -/
def parseVal : Nat → List Char → Option (Json × List Char)
  | 0, _ => none
  | fuel + 1, cs =>
    match skipWs cs with
    | [] => none
    | c :: rest =>
      if c = 'n' then
        match rest with
        | 'u' :: 'l' :: 'l' :: r => some (.null, r)
        | _ => none
      else if c = 't' then
        match rest with
        | 'r' :: 'u' :: 'e' :: r => some (.bool true, r)
        | _ => none
      else if c = 'f' then
        match rest with
        | 'a' :: 'l' :: 's' :: 'e' :: r => some (.bool false, r)
        | _ => none
      else if c = '"' then
        match parseStr rest with
        | some (s, r) => some (.str s, r)
        | none => none
      else if c = '[' then
        match skipWs rest with
        | [] => none
        | c2 :: r2 =>
          if c2 = ']' then some (.arr [], r2)
          else
            match parseArrItems fuel (c2 :: r2) with
            | some (xs, r) => some (.arr xs, r)
            | none => none
      else if c = '{' then
        match skipWs rest with
        | [] => none
        | c2 :: r2 =>
          if c2 = '}' then some (.obj [], r2)
          else
            match parseObjItems fuel (c2 :: r2) with
            | some (kvs, r) => some (.obj kvs, r)
            | none => none
      else if c = '-' ∨ isDigitCh c then parseNum (c :: rest)
      else none

/-- Nonempty comma-separated array elements up to `]`. -/
def parseArrItems : Nat → List Char → Option (List Json × List Char)
  | 0, _ => none
  | fuel + 1, cs =>
    match parseVal fuel cs with
    | none => none
    | some (v, r) =>
      match skipWs r with
      | ',' :: r2 =>
        match parseArrItems fuel r2 with
        | some (vs, r3) => some (v :: vs, r3)
        | none => none
      | ']' :: r2 => some ([v], r2)
      | _ => none

/-- Nonempty comma-separated `"key": value` entries up to `}`. -/
def parseObjItems : Nat → List Char → Option (List (String × Json) × List Char)
  | 0, _ => none
  | fuel + 1, cs =>
    match skipWs cs with
    | '"' :: cs1 =>
      match parseStr cs1 with
      | none => none
      | some (k, cs2) =>
        match skipWs cs2 with
        | ':' :: cs3 =>
          match parseVal fuel cs3 with
          | none => none
          | some (v, cs4) =>
            match skipWs cs4 with
            | ',' :: cs5 =>
              match parseObjItems fuel cs5 with
              | some (kvs, r) => some ((k, v) :: kvs, r)
              | none => none
            | '}' :: cs5 => some ([(k, v)], cs5)
            | _ => none
        | _ => none
    | _ => none

end

/-- `json.loads`: decode one value and require only whitespace after
it. -/
def jsonLoads (cs : List Char) : Option Json :=
  match parseVal (cs.length + 1) cs with
  | some (v, rest) => if skipWs rest = [] then some v else none
  | none => none

/-! ## Payload extraction (api.py lines 109-123)

`_raw_request` takes the decoded response text from the first `{` to
the last `}` (tolerating the device's duplicated status lines and
garbage around the JSON body) and decodes that substring. -/

/-- Python `text.find(c)`: index of the first occurrence, `none` for
Python's `-1`. -/
def pyFindAux (c : Char) : List Char → Nat → Option Nat
  | [], _ => none
  | x :: xs, i => if x = c then some i else pyFindAux c xs (i + 1)

/-- Python `text.find(c)`. -/
def pyFind (s : List Char) (c : Char) : Option Nat := pyFindAux c s 0

/-- Python `text.rfind(c)`: index of the last occurrence, `none` for
Python's `-1`. -/
def pyRFind (s : List Char) (c : Char) : Option Nat :=
  match pyFind s.reverse c with
  | some i => some (s.length - 1 - i)
  | none => none

/-- The JSON-extraction step of `_raw_request`: substring from the
first `{`; if a `}` occurs, cut after the last one.  `none` models the
`NevotonApiError("No JSON in response")` raise when no `{` exists. -/
def extractJson (text : List Char) : Option (List Char) :=
  match pyFind text '{' with
  | none => none
  | some i =>
    let t := text.drop i
    match pyRFind t '}' with
    | none => some t
    | some j => some (t.take (j + 1))

/-- Outcome of the shared request/response step `_raw_request`:
either a decoded payload or one of the typed failures.  `pyExn` models a
Python exception outside the client's taxonomy. -/
inductive ApiOutcome where
  | ok (data : Json) : ApiOutcome
  | authError : ApiOutcome
  | apiError : ApiOutcome
  | connError : ApiOutcome
  | pyExn : ApiOutcome
deriving DecidableEq

/-- The error-classification step of `_raw_request` (api.py lines
125-135): an `error_api` field of value `6` raises `NevotonAuthError`,
any other `error_api` value raises `NevotonApiError`, and otherwise a
non-zero `error_device` field raises `NevotonApiError`. -/
def checkErrors (data : Json) : ApiOutcome :=
  match pyContains data "error_api" with
  | none => .pyExn
  | some true =>
    match pySubscript data "error_api" with
    | none => .pyExn
    | some code => if pyEqInt code 6 then .authError else .apiError
  | some false =>
    match pyContains data "error_device" with
    | none => .pyExn
    | some true =>
      match pySubscript data "error_device" with
      | none => .pyExn
      | some d => if pyEqInt d 0 then .ok data else .apiError
    | some false => .ok data

/-- The payload-extraction step of `async_get_state` (api.py lines
160-167): navigate `inputs` / `data`, take the first list element's
`value` mapping, and fall back to `{}` when the nesting is absent or
empty.  `none` models a Python exception on unexpected shapes. -/
def getStateResult (data : Json) : Option Json :=
  match pyContains data "inputs" with
  | none => none
  | some false => some (.obj [])
  | some true =>
    match pySubscript data "inputs" with
    | none => none
    | some inputsVal =>
      match pyContains inputsVal "data" with
      | none => none
      | some false => some (.obj [])
      | some true =>
        match pySubscript inputsVal "data" with
        | none => none
        | some inputsData =>
          if pyTruthy inputsData then
            match pyLen inputsData with
            | none => none
            | some l =>
              if l > 0 then
                match pyIndexZero inputsData with
                | none => none
                | some first => pyGetMethod first "value" (.obj [])
              else some (.obj [])
          else some (.obj [])

/-- The acknowledgement step of `async_set_parameter` (api.py lines
184-188): `data["outputs"].get("error_ch", 1) == 0` when `outputs` is
present, `False` otherwise.  `none` models a Python exception. -/
def setParamResult (data : Json) : Option Bool :=
  match pyContains data "outputs" with
  | none => none
  | some false => some false
  | some true =>
    match pySubscript data "outputs" with
    | none => none
    | some out =>
      match pyGetMethod out "error_ch" (.num 1) with
      | none => none
      | some v => some (pyEqInt v 0)

/-! ## Transport model (api.py lines 82-107)

`sync_request` opens a fresh socket with a 10-second timeout, sends the
request, reads until the peer closes, and closes the socket in a
`finally` block.  The network's behaviour for one exchange is abstracted
by `NetBehavior`; wall-clock time is not modelled, only the *outcome* of
an exchange (completed / timed out / failed). -/

/-- `sock.settimeout(10)` (api.py line 85). -/
def requestTimeoutSeconds : Nat := 10

/-- Abstract behaviour of the network during one exchange: the peer
responds fully and closes (`respond`, carrying the response decoded
with `errors='ignore'`), a socket operation exceeds the
`requestTimeoutSeconds` timeout (`timedOut`), or the connection is
refused / reset (`sockFail`). -/
inductive NetBehavior where
  | respond (text : List Char) : NetBehavior
  | timedOut : NetBehavior
  | sockFail : NetBehavior

/-- Exceptions the transport can raise: `socket.timeout` and other
`socket.error`s (`OSError`). -/
inductive TransportExc where
  | timeout : TransportExc
  | oserror : TransportExc
deriving DecidableEq

/-- Result of the `try` body of `sync_request`: the accumulated decoded
response, or the exception that escaped the body. -/
def syncBody : NetBehavior → Except TransportExc (List Char)
  | .respond t => .ok t
  | .timedOut => .error .timeout
  | .sockFail => .error .oserror

/-- `sync_request`: the body's result together with the socket's final
state.  The `finally: sock.close()` runs whether the body returned or
raised, so the socket is closed on every path. -/
def syncRequest (b : NetBehavior) : Except TransportExc (List Char) × Bool :=
  (syncBody b, true)

/-- The response-processing half of `_raw_request` (api.py lines
109-135): extract the JSON substring, decode it, classify errors. -/
def processResponse (text : List Char) : ApiOutcome :=
  match extractJson text with
  | none => .apiError
  | some jt =>
    match jsonLoads jt with
    | none => .apiError
    | some data => checkErrors data

/-- `_raw_request` (api.py lines 71-135): run the socket exchange,
map `socket.timeout` and `socket.error` to `NevotonConnectionError`,
then extract, decode and classify the response.  The second component
records whether the socket was closed. -/
def rawRequest (b : NetBehavior) : ApiOutcome × Bool :=
  match syncRequest b with
  | (.error .timeout, closed) => (.connError, closed)
  | (.error .oserror, closed) => (.connError, closed)
  | (.ok text, closed) => (processResponse text, closed)

/-! ## Client state and operations -/

/-- The client object: host, the SHA-1 digest stored at construction,
and the cached device-information payload (api.py lines 46-55). -/
structure NevotonKomfortApi where
  host : String
  password_hash : String
  device_info : Option Json
deriving DecidableEq

/-- Result of one client operation as seen by the caller. -/
inductive OpResult (α : Type) where
  | ok (a : α) : OpResult α
  | authError : OpResult α
  | apiError : OpResult α
  | connError : OpResult α
  | pyExn : OpResult α
deriving DecidableEq

/-- Map a failed request outcome into an operation result. -/
def liftFail {α : Type} : ApiOutcome → OpResult α
  | .ok _ => .pyExn
  | .authError => .authError
  | .apiError => .apiError
  | .connError => .connError
  | .pyExn => .pyExn

/-- `async_get_device_info` (api.py lines 145-149): on success store
the payload in `self._device_info` and return it; on any raise the
assignment is never reached and the state is unchanged. -/
def asyncGetDeviceInfo (st : NevotonKomfortApi) (b : NetBehavior) :
    NevotonKomfortApi × OpResult Json :=
  match (rawRequest b).1 with
  | .ok data => ({ st with device_info := some data }, .ok data)
  | e => (st, liftFail e)

/-- `async_get_state` (api.py lines 151-167): request, then extract the
first `inputs.data` element's `value` mapping.  Never touches client
state. -/
def asyncGetState (st : NevotonKomfortApi) (b : NetBehavior) :
    NevotonKomfortApi × OpResult Json :=
  (st,
    match (rawRequest b).1 with
    | .ok data =>
      match getStateResult data with
      | some m => .ok m
      | none => .pyExn
    | e => liftFail e)

/-- `async_set_parameter` (api.py lines 169-188): request, then check
the `outputs.error_ch` acknowledgement.  Never touches client state. -/
def asyncSetParameter (st : NevotonKomfortApi) (_parameter : String)
    (_value : ℚ) (b : NetBehavior) : NevotonKomfortApi × OpResult Bool :=
  (st,
    match (rawRequest b).1 with
    | .ok data =>
      match setParamResult data with
      | some ok => .ok ok
      | none => .pyExn
    | e => liftFail e)

/-- One call against the client, with the network behaviour it meets. -/
inductive ApiCall where
  | getDeviceInfo (b : NetBehavior) : ApiCall
  | getState (b : NetBehavior) : ApiCall
  | setParameter (parameter : String) (value : ℚ) (b : NetBehavior) : ApiCall

/-- State transition of one call. -/
def applyCall (st : NevotonKomfortApi) : ApiCall → NevotonKomfortApi
  | .getDeviceInfo b => (asyncGetDeviceInfo st b).1
  | .getState b => (asyncGetState st b).1
  | .setParameter p v b => (asyncSetParameter st p v b).1

/-- The client state after a sequence of calls. -/
def runCalls (st : NevotonKomfortApi) (cs : List ApiCall) : NevotonKomfortApi :=
  cs.foldl applyCall st

/-- The four read-only accessors (api.py lines 194-220).  Each first
tests the truthiness of `self._device_info` and returns Python `None`
(modelled as `some Json.null`) when it is `None` or empty; an outer
`none` models a Python exception on an unexpectedly-shaped payload. -/
def deviceIdAcc (st : NevotonKomfortApi) : Option Json :=
  match st.device_info with
  | none => some .null
  | some info =>
    if pyTruthy info then
      match pyGetMethod info "device" (.obj []) with
      | none => none
      | some dev => pyGetMethod dev "id" .null
    else some .null

/-- `device_mac` accessor (api.py lines 201-206). -/
def deviceMacAcc (st : NevotonKomfortApi) : Option Json :=
  match st.device_info with
  | none => some .null
  | some info =>
    if pyTruthy info then
      match pyGetMethod info "device" (.obj []) with
      | none => none
      | some dev => pyGetMethod dev "macSTA" .null
    else some .null

/-- `firmware_version` accessor (api.py lines 208-213). -/
def firmwareVersionAcc (st : NevotonKomfortApi) : Option Json :=
  match st.device_info with
  | none => some .null
  | some info =>
    if pyTruthy info then pyGetMethod info "firmwareVersion" .null
    else some .null

/-- `model_name` accessor (api.py lines 215-220). -/
def modelNameAcc (st : NevotonKomfortApi) : Option Json :=
  match st.device_info with
  | none => some .null
  | some info =>
    if pyTruthy info then pyGetMethod info "moduleName" .null
    else some .null

/-! ## URL building (api.py lines 62-69)

`_build_url` sets `params[PARAM_HASH]` and serializes the parameters in
dictionary insertion order.  Parameter values are modelled already
rendered to strings (Python interpolates them with `f"{k}={v}"`). -/

/-- Python `d[k] = v` on an insertion-ordered dict: update in place if
the key exists, otherwise append. -/
def dictAssign (d : List (String × String)) (k v : String) :
    List (String × String) :=
  if d.any (fun p => p.1 = k) then
    d.map (fun p => if p.1 = k then (p.1, v) else p)
  else d ++ [(k, v)]

/-- Python `"&".join(strs)`. -/
def joinAmp : List String → String
  | [] => ""
  | [x] => x
  | x :: y :: rest => x ++ "&" ++ joinAmp (y :: rest)

/-- `_build_url`: append the stored digest under the key `"hash"`, then
serialize `k=v` pairs joined by `&` after a `?`. -/
def buildUrl (endpoint : String) (params : List (String × String))
    (passwordHash : String) : String :=
  endpoint ++ "?" ++
    joinAmp ((dictAssign params "hash" passwordHash).map
      (fun p => p.1 ++ "=" ++ p.2))

/-- Python `int(x)` on a numeric value: truncation toward zero
(`int()` of a `float`; the identity on `int`).  Every binary float is a
rational, so the rationals model the numeric argument faithfully. -/
def pyInt (q : ℚ) : Int := q.num.tdiv (q.den : Int)

/-- The operation-specific query parameters of `async_get_device_info`
(api.py line 147): none. -/
def deviceInfoParams : List (String × String) := []

/-- The operation-specific query parameters of `async_get_state`
(api.py lines 153-159). -/
def getStateParams : List (String × String) :=
  [("type", "specific"), ("number", "All")]

/-- The operation-specific query parameters of `async_set_parameter`
(api.py lines 175-183): the value is transmitted as `int(value)`,
rendered in decimal. -/
def setParamParams (parameter : String) (value : ℚ) :
    List (String × String) :=
  [("type", "specific"), ("number", "0"), ("sp_name", parameter),
   ("value", String.mk (intChars (pyInt value)))]

/-! ## SHA-1 (`_hash_password`, api.py lines 57-60)

`hashlib.sha1(password.encode()).hexdigest()`: UTF-8 encode the
secret, hash with SHA-1 (FIPS 180), render as 40 lowercase hex
characters.  SHA-1 is defined here over byte lists as natural numbers
with arithmetic modulo `2^32`. -/

/-- UTF-8 encoding of one character (Python `str.encode()`). -/
def charUtf8 (c : Char) : List Nat :=
  let n := c.toNat
  if n < 128 then [n]
  else if n < 2048 then [192 + n / 64, 128 + n % 64]
  else if n < 65536 then
    [224 + n / 4096, 128 + n / 64 % 64, 128 + n % 64]
  else
    [240 + n / 262144, 128 + n / 4096 % 64, 128 + n / 64 % 64, 128 + n % 64]

/-- UTF-8 encoding of a string as a byte list. -/
def utf8Bytes (s : String) : List Nat := (s.data.map charUtf8).flatten

/-- Left rotation of a 32-bit word. -/
def rotl32 (x k : Nat) : Nat :=
  ((x <<< k) ||| (x >>> (32 - k))) % 4294967296

/-- Big-endian bytes of `n` across `w` bytes. -/
def beBytes (w n : Nat) : List Nat :=
  (List.range w).map (fun i => n >>> (8 * (w - 1 - i)) % 256)

/-- SHA-1 message padding: `0x80`, zeros to 56 mod 64, then the
64-bit big-endian bit length. -/
def sha1Pad (msg : List Nat) : List Nat :=
  let z := (119 - msg.length % 64) % 64
  msg ++ (128 :: List.replicate z 0) ++ beBytes 8 (msg.length * 8)

/-- Split a byte list into 64-byte blocks (fuel-indexed; each step
consumes at least one byte). -/
def chunks64F : Nat → List Nat → List (List Nat)
  | 0, _ => []
  | _ + 1, [] => []
  | fuel + 1, x :: rest =>
    ((x :: rest).take 64) :: chunks64F fuel ((x :: rest).drop 64)

/-- Split a byte list into 64-byte blocks. -/
def chunks64 (l : List Nat) : List (List Nat) := chunks64F l.length l

/-- Big-endian 32-bit words of a block. -/
def blockWords : List Nat → List Nat
  | b0 :: b1 :: b2 :: b3 :: rest =>
    (((b0 * 256 + b1) * 256 + b2) * 256 + b3) :: blockWords rest
  | _ => []

/-- Extend 16 schedule words to 80. -/
def sha1Extend (ws : List Nat) : List Nat :=
  (List.range 64).foldl
    (fun acc i =>
      acc ++ [rotl32 (((acc.getD (i + 13) 0) ^^^ (acc.getD (i + 8) 0)) ^^^
        ((acc.getD (i + 2) 0) ^^^ (acc.getD i 0))) 1])
    ws

/-- The SHA-1 round function and constant for round `i`. -/
def sha1FK (i b c d : Nat) : Nat × Nat :=
  if i < 20 then ((b &&& c) ||| ((b ^^^ 4294967295) &&& d), 1518500249)
  else if i < 40 then ((b ^^^ c) ^^^ d, 1859775393)
  else if i < 60 then ((b &&& c) ||| (b &&& d) ||| (c &&& d), 2400959708)
  else ((b ^^^ c) ^^^ d, 3395469782)

/-- One SHA-1 compression over a 64-byte block. -/
def sha1Compress (h : Nat × Nat × Nat × Nat × Nat) (block : List Nat) :
    Nat × Nat × Nat × Nat × Nat :=
  let w := sha1Extend (blockWords block)
  let (h0, h1, h2, h3, h4) := h
  let st := (List.range 80).foldl
    (fun (s : Nat × Nat × Nat × Nat × Nat) i =>
      let (a, b, c, d, e) := s
      let fk := sha1FK i b c d
      let temp := (rotl32 a 5 + fk.1 + e + fk.2 + w.getD i 0) % 4294967296
      (temp, a, rotl32 b 30, c, d))
    (h0, h1, h2, h3, h4)
  ((h0 + st.1) % 4294967296, (h1 + st.2.1) % 4294967296,
   (h2 + st.2.2.1) % 4294967296, (h3 + st.2.2.2.1) % 4294967296,
   (h4 + st.2.2.2.2) % 4294967296)

/-- Eight lowercase hex digits of a 32-bit word. -/
def hex8 (n : Nat) : List Char :=
  (List.range 8).map (fun i => hexDigitCh (n >>> (4 * (7 - i)) % 16))

/-- SHA-1 hex digest of a byte list (FIPS 180, as `hashlib.sha1`). -/
def sha1Hex (msg : List Nat) : String :=
  let blocks := chunks64 (sha1Pad msg)
  let h := blocks.foldl sha1Compress
    (1732584193, 4023233417, 2562383102, 271733878, 3285377520)
  String.mk (hex8 h.1 ++ hex8 h.2.1 ++ hex8 h.2.2.1 ++
    hex8 h.2.2.2.1 ++ hex8 h.2.2.2.2)

/-- `_hash_password` (api.py lines 57-60):
`hashlib.sha1(password.encode()).hexdigest()`. -/
def hashPassword (password : String) : String :=
  sha1Hex (utf8Bytes password)

/-- `__init__` (api.py lines 46-55): store the host and the digest of
the password; no device info cached yet. -/
def initApi (host password : String) : NevotonKomfortApi :=
  { host := host, password_hash := hashPassword password,
    device_info := none }

/-! ## Auxiliary measures for the round-trip proof -/

/-- A remainder that cannot extend a decimal numeral to its left
neighbour: empty, or starting with a non-digit that is none of `.`,
`e`, `E`. -/
def numSafe : List Char → Bool
  | [] => true
  | c :: _ => !isDigitCh c && !(c = '.') && !(c = 'e') && !(c = 'E')

mutual

/-- Fuel measure of a JSON value for the recursive-descent decoder. -/
def jsizeV : Json → Nat
  | .null => 1
  | .bool _ => 1
  | .num _ => 1
  | .str _ => 1
  | .arr xs => 1 + jsizeL xs
  | .obj kvs => 1 + jsizeO kvs

/-- Fuel measure of array elements. -/
def jsizeL : List Json → Nat
  | [] => 0
  | x :: rest => 1 + jsizeV x + jsizeL rest

/-- Fuel measure of object entries. -/
def jsizeO : List (String × Json) → Nat
  | [] => 0
  | (_, v) :: rest => 1 + jsizeV v + jsizeO rest

end


/-! # Supporting lemmas -/

theorem charToNat_ofNat {n : Nat} (h : n.isValidChar) :
    (Char.ofNat n).toNat = n := by
  simp [Char.ofNat, Char.toNat, Char.ofNatAux, UInt32.toNat, h]

theorem char_valid_ranges (c : Char) :
    c.toNat < 55296 ∨ (57343 < c.toNat ∧ c.toNat < 1114112) := by
  have h := c.valid
  unfold Nat.isValidChar at h
  exact h

theorem char_eq_ofNat_toNat {c : Char} {n : Nat} (h : c.toNat = n) :
    c = Char.ofNat n := by
  rw [← h, Char.ofNat_toNat]

theorem skipWs_cons_not {c : Char} {t : List Char} (h : isWsCh c = false) :
    skipWs (c :: t) = c :: t := by
  simp [skipWs, h]

theorem hexVal_hexDigitCh {k : Nat} (h : k < 16) :
    hexVal (hexDigitCh k) = some k := by
  interval_cases k <;> decide

theorem natCharsF_eq (fuel : Nat) :
    ∀ (n : Nat) (acc : List Char), n < 10 ^ fuel →
      natCharsF fuel n acc =
        ((Nat.digits 10 n).reverse.map (fun d => Char.ofNat (48 + d))) ++ acc := by
  induction fuel with
  | zero =>
    intro n acc h
    interval_cases n
    simp [natCharsF]
  | succ fuel ih =>
    intro n acc h
    by_cases hn : n = 0
    · subst hn; simp [natCharsF]
    · rw [natCharsF, if_neg hn,
        ih (n / 10) _ (by rw [Nat.div_lt_iff_lt_mul (by norm_num)]; rw [pow_succ] at h; omega),
        Nat.digits_def' (by norm_num : (1:Nat) < 10) (Nat.pos_of_ne_zero hn)]
      simp [List.map_append, List.append_assoc]

theorem natChars_repr {n : Nat} (h : n ≠ 0) :
    natChars n =
      (Nat.digits 10 n).reverse.map (fun d => Char.ofNat (48 + d)) := by
  have hb : n < 10 ^ (n + 1) :=
    lt_of_lt_of_le (Nat.lt_pow_self (by norm_num) n)
      (Nat.pow_le_pow_right (by norm_num) (Nat.le_succ n))
  rw [natChars, if_neg h, natCharsF_eq _ _ _ hb, List.append_nil]

theorem digit_char_toNat {d : Nat} (h : d < 10) :
    (Char.ofNat (48 + d)).toNat = 48 + d := by
  apply charToNat_ofNat
  unfold Nat.isValidChar
  omega

theorem foldl_digits_reverse (ds : List Nat) (a : Nat)
    (h : ∀ d ∈ ds, d < 10) :
    List.foldl (fun a c => a * 10 + (c.toNat - 48)) a
      ((ds.map (fun d => Char.ofNat (48 + d))).reverse) =
      a * 10 ^ ds.length + Nat.ofDigits 10 ds := by
  induction ds generalizing a with
  | nil => simp
  | cons d t ih =>
    have hd : d < 10 := h d (by simp)
    have ht : ∀ x ∈ t, x < 10 := fun x hx => h x (by simp [hx])
    simp only [List.map_cons, List.reverse_cons, List.foldl_append,
      List.foldl_cons, List.foldl_nil, ih a ht, digit_char_toNat hd,
      Nat.ofDigits_cons, List.length_cons]
    ring_nf
    omega

theorem digitsVal_natChars (n : Nat) : digitsVal (natChars n) = n := by
  by_cases h : n = 0
  · subst h; decide
  · rw [natChars_repr h, digitsVal, List.map_reverse,
      foldl_digits_reverse _ 0
        (fun d hd => Nat.digits_lt_base (by norm_num) hd)]
    simp [Nat.ofDigits_digits]

theorem natChars_ne_nil (n : Nat) : natChars n ≠ [] := by
  by_cases h : n = 0
  · subst h; simp [natChars]
  · rw [natChars_repr h]
    simp [Nat.digits_ne_nil_iff_ne_zero.mpr h]

theorem digit_bounds {c : Char} (h : isDigitCh c = true) :
    48 ≤ c.toNat ∧ c.toNat ≤ 57 := by
  simpa [isDigitCh] using h

theorem char_ne_of_toNat {c d : Char} (h : c.toNat ≠ d.toNat) : c ≠ d :=
  fun he => h (he ▸ rfl)

theorem natChars_digits (n : Nat) :
    ∀ c ∈ natChars n, isDigitCh c = true := by
  intro c hc
  by_cases h : n = 0
  · subst h; simp [natChars] at hc; subst hc; decide
  · rw [natChars_repr h] at hc
    obtain ⟨d, hd, rfl⟩ := List.mem_map.mp hc
    have hd10 : d < 10 :=
      Nat.digits_lt_base (by norm_num) (List.mem_reverse.mp hd)
    have := digit_char_toNat hd10
    simp [isDigitCh, this]
    omega

theorem natChars_head_ne_zero {n : Nat} {d : Char} {ds : List Char}
    (hn : n ≠ 0) (h : natChars n = d :: ds) : d ≠ '0' := by
  rw [natChars_repr hn] at h
  have h1 : ((Nat.digits 10 n).reverse.map
      (fun d => Char.ofNat (48 + d))).head? = some d := by
    rw [h]; rfl
  rw [List.head?_map, List.head?_reverse] at h1
  have hne : Nat.digits 10 n ≠ [] := Nat.digits_ne_nil_iff_ne_zero.mpr hn
  rw [List.getLast?_eq_getLast _ hne] at h1
  have hlast : (Nat.digits 10 n).getLast hne ≠ 0 :=
    Nat.getLast_digit_ne_zero 10 hn
  have hlt : (Nat.digits 10 n).getLast hne < 10 :=
    Nat.digits_lt_base (by norm_num) (List.getLast_mem hne)
  simp only [Option.map_some', Option.some.injEq] at h1
  subst h1
  apply char_ne_of_toNat
  rw [digit_char_toNat hlt]
  intro hcontra
  have : ('0' : Char).toNat = 48 := rfl
  omega

theorem takeWhile_all_append {p : Char → Bool} (l q : List Char)
    (hl : ∀ c ∈ l, p c = true)
    (hq : ∀ c t, q = c :: t → p c = false) :
    (l ++ q).takeWhile p = l ∧ (l ++ q).dropWhile p = q := by
  induction l with
  | nil =>
    simp only [List.nil_append]
    match q with
    | [] => simp
    | c :: t =>
      have := hq c t rfl
      simp [List.takeWhile_cons, List.dropWhile_cons, this]
  | cons x xs ih =>
    have hx : p x = true := hl x (by simp)
    have ihh := ih (fun c hc => hl c (by simp [hc]))
    simp [List.takeWhile_cons, List.dropWhile_cons, hx, ihh.1, ihh.2]

theorem hex_recompose {n : Nat} (h : n < 65536) :
    ((n / 4096 % 16 * 16 + n / 256 % 16) * 16 + n / 16 % 16) * 16 + n % 16 = n := by
  omega


theorem parseStrAux_lit {c : Char} (fuel : Nat) (acc t : List Char)
    (h1 : ¬c = '"') (h2 : ¬c = '\\') (h3 : ¬c.toNat < 32) :
    parseStrAux (fuel + 1) acc (c :: t) = parseStrAux fuel (c :: acc) t := by
  simp only [parseStrAux]
  rw [if_neg h1, if_neg h2, if_neg h3]

theorem parseStrAux_backslash (fuel : Nat) (acc rest : List Char) :
    parseStrAux (fuel + 1) acc ('\\' :: rest) =
      match decodeEsc rest with
      | some (ch, k) => parseStrAux fuel (ch :: acc) (rest.drop k)
      | none => none := by
  simp only [parseStrAux]
  simp

theorem decodeEsc_u (e1 e2 e3 e4 : Char) (t : List Char) :
    decodeEsc ('u' :: e1 :: e2 :: e3 :: e4 :: t) =
      match hexVal e1, hexVal e2, hexVal e3, hexVal e4 with
      | some a, some b, some c, some d =>
        let n := ((a * 16 + b) * 16 + c) * 16 + d
        if n < 55296 ∨ 57344 ≤ n then some (Char.ofNat n, 5)
        else if n < 56320 then
          match t with
          | x1 :: x2 :: g1 :: g2 :: g3 :: g4 :: _ =>
            if x1 = '\\' ∧ x2 = 'u' then
              match hexVal g1, hexVal g2, hexVal g3, hexVal g4 with
              | some a2, some b2, some c2, some d2 =>
                let m := ((a2 * 16 + b2) * 16 + c2) * 16 + d2
                if 56320 ≤ m ∧ m < 57344 then
                  some (Char.ofNat
                    (65536 + (n - 55296) * 1024 + (m - 56320)), 11)
                else none
              | _, _, _, _ => none
            else none
          | _ => none
        else none
      | _, _, _, _ => none := by
  rfl

theorem parseStrAux_esc1 {e ch : Char} (fuel : Nat) (acc t : List Char)
    (h : decodeEsc (e :: t) = some (ch, 1)) :
    parseStrAux (fuel + 1) acc ('\\' :: e :: t) =
      parseStrAux fuel (ch :: acc) t := by
  rw [parseStrAux_backslash, h]
  simp


set_option maxHeartbeats 1600000 in
theorem parseStrAux_surr (fuel : Nat) (acc t : List Char)
    (e1 e2 e3 e4 g1 g2 g3 g4 : Char) (a b c d a2 b2 c2 d2 N M : Nat)
    (q1 : hexVal e1 = some a) (q2 : hexVal e2 = some b)
    (q3 : hexVal e3 = some c) (q4 : hexVal e4 = some d)
    (q5 : hexVal g1 = some a2) (q6 : hexVal g2 = some b2)
    (q7 : hexVal g3 = some c2) (q8 : hexVal g4 = some d2)
    (hN : ((a * 16 + b) * 16 + c) * 16 + d = N)
    (hM : ((a2 * 16 + b2) * 16 + c2) * 16 + d2 = M)
    (hn : ¬(N < 55296 ∨ 57344 ≤ N)) (hn2 : N < 56320)
    (hm : 56320 ≤ M ∧ M < 57344) :
    parseStrAux (fuel + 1) acc ('\\' :: 'u' :: e1 :: e2 :: e3 :: e4 ::
        '\\' :: 'u' :: g1 :: g2 :: g3 :: g4 :: t) =
      parseStrAux fuel
        (Char.ofNat (65536 + (N - 55296) * 1024 + (M - 56320)) :: acc) t := by
  rw [parseStrAux_backslash, decodeEsc_u, q1, q2, q3, q4]
  simp only [hN]
  rw [if_neg hn, if_pos hn2]
  simp only [show (('\\' : Char) = '\\' ∧ ('u' : Char) = 'u') = True by simp,
    if_true, q5, q6, q7, q8, hM]
  rw [if_pos hm]
  simp

set_option maxHeartbeats 1600000 in
theorem escChar_surr (c : Char) (t : List Char)
    (h1 : ¬c = '"') (h2 : ¬c = '\\') (h3 : ¬c.toNat = 8) (h4 : ¬c.toNat = 9)
    (h5 : ¬c.toNat = 10) (h6 : ¬c.toNat = 12) (h7 : ¬c.toNat = 13)
    (h8 : ¬(32 ≤ c.toNat ∧ c.toNat ≤ 126)) (h9 : ¬c.toNat < 65536) :
    escChar c ++ t = '\\' :: 'u' ::
      hexDigitCh ((55296 + (c.toNat - 65536) / 1024) / 4096 % 16) ::
      hexDigitCh ((55296 + (c.toNat - 65536) / 1024) / 256 % 16) ::
      hexDigitCh ((55296 + (c.toNat - 65536) / 1024) / 16 % 16) ::
      hexDigitCh ((55296 + (c.toNat - 65536) / 1024) % 16) :: '\\' :: 'u' ::
      hexDigitCh ((56320 + (c.toNat - 65536) % 1024) / 4096 % 16) ::
      hexDigitCh ((56320 + (c.toNat - 65536) % 1024) / 256 % 16) ::
      hexDigitCh ((56320 + (c.toNat - 65536) % 1024) / 16 % 16) ::
      hexDigitCh ((56320 + (c.toNat - 65536) % 1024) % 16) :: t := by
  simp [escChar, hex4, h1, h2, h3, h4, h5, h6, h7, h8, h9]

set_option maxHeartbeats 1600000 in
theorem parseStrAux_escC (c : Char) (fuel : Nat) (acc t : List Char)
    (h1 : ¬c = '"') (h2 : ¬c = '\\') (h3 : ¬c.toNat = 8) (h4 : ¬c.toNat = 9)
    (h5 : ¬c.toNat = 10) (h6 : ¬c.toNat = 12) (h7 : ¬c.toNat = 13)
    (h8 : ¬(32 ≤ c.toNat ∧ c.toNat ≤ 126)) (h9 : ¬c.toNat < 65536) :
    parseStrAux (fuel + 1) acc (escChar c ++ t) =
      parseStrAux fuel (c :: acc) t := by
  have hv := char_valid_ranges c
  have h65 : 65536 ≤ c.toNat := by omega
  have hup : c.toNat < 1114112 := by omega
  have hd : (c.toNat - 65536) / 1024 ≤ 1023 := by omega
  have hm0 := Nat.mod_lt (c.toNat - 65536) (show 0 < 1024 by norm_num)
  have hnh16 : 55296 + (c.toNat - 65536) / 1024 < 65536 := by omega
  have hnl16 : 56320 + (c.toNat - 65536) % 1024 < 65536 := by omega
  rw [escChar_surr c t h1 h2 h3 h4 h5 h6 h7 h8 h9,
    parseStrAux_surr fuel acc t _ _ _ _ _ _ _ _ _ _ _ _ _ _ _ _
      (55296 + (c.toNat - 65536) / 1024) (56320 + (c.toNat - 65536) % 1024)
      (hexVal_hexDigitCh (Nat.mod_lt _ (by norm_num)))
      (hexVal_hexDigitCh (Nat.mod_lt _ (by norm_num)))
      (hexVal_hexDigitCh (Nat.mod_lt _ (by norm_num)))
      (hexVal_hexDigitCh (Nat.mod_lt _ (by norm_num)))
      (hexVal_hexDigitCh (Nat.mod_lt _ (by norm_num)))
      (hexVal_hexDigitCh (Nat.mod_lt _ (by norm_num)))
      (hexVal_hexDigitCh (Nat.mod_lt _ (by norm_num)))
      (hexVal_hexDigitCh (Nat.mod_lt _ (by norm_num)))
      (hex_recompose hnh16) (hex_recompose hnl16)
      (by omega) (by omega) (by omega)]
  have hcomb : 65536 + ((55296 + (c.toNat - 65536) / 1024) - 55296) * 1024 +
      ((56320 + (c.toNat - 65536) % 1024) - 56320) = c.toNat := by
    simp only [Nat.add_sub_cancel_left]
    have := Nat.div_add_mod (c.toNat - 65536) 1024
    omega
  rw [hcomb, Char.ofNat_toNat]

set_option maxHeartbeats 1600000 in
theorem parseStrAux_escB (c : Char) (fuel : Nat) (acc t : List Char)
    (h1 : ¬c = '"') (h2 : ¬c = '\\') (h3 : ¬c.toNat = 8) (h4 : ¬c.toNat = 9)
    (h5 : ¬c.toNat = 10) (h6 : ¬c.toNat = 12) (h7 : ¬c.toNat = 13)
    (h8 : ¬(32 ≤ c.toNat ∧ c.toNat ≤ 126)) (h9 : c.toNat < 65536) :
    parseStrAux (fuel + 1) acc (escChar c ++ t) =
      parseStrAux fuel (c :: acc) t := by
  rw [show escChar c ++ t = '\\' :: 'u' :: hexDigitCh (c.toNat / 4096 % 16) ::
      hexDigitCh (c.toNat / 256 % 16) :: hexDigitCh (c.toNat / 16 % 16) ::
      hexDigitCh (c.toNat % 16) :: t by
    simp [escChar, hex4, h1, h2, h3, h4, h5, h6, h7, h8, h9]]
  have hv := char_valid_ranges c
  have hrange : c.toNat < 55296 ∨ 57344 ≤ c.toNat := by omega
  have e1 := hexVal_hexDigitCh (Nat.mod_lt (c.toNat / 4096) (by norm_num))
  have e2 := hexVal_hexDigitCh (Nat.mod_lt (c.toNat / 256) (by norm_num))
  have e3 := hexVal_hexDigitCh (Nat.mod_lt (c.toNat / 16) (by norm_num))
  have e4 := hexVal_hexDigitCh (Nat.mod_lt c.toNat (by norm_num))
  rw [parseStrAux_backslash, decodeEsc_u, e1, e2, e3, e4]
  simp only [hex_recompose h9]
  rw [if_pos hrange]
  simp [Char.ofNat_toNat]

set_option maxHeartbeats 1600000 in
theorem parseStrAux_esc (c : Char) (fuel : Nat) (acc t : List Char) :
    parseStrAux (fuel + 1) acc (escChar c ++ t) =
      parseStrAux fuel (c :: acc) t := by
  by_cases h1 : c = '"'
  · subst h1
    rw [show escChar '"' ++ t = '\\' :: '"' :: t from rfl]
    exact parseStrAux_esc1 fuel acc t rfl
  by_cases h2 : c = '\\'
  · subst h2
    rw [show escChar '\\' ++ t = '\\' :: '\\' :: t from rfl]
    exact parseStrAux_esc1 fuel acc t rfl
  by_cases h3 : c.toNat = 8
  · rw [char_eq_ofNat_toNat h3,
      show escChar (Char.ofNat 8) ++ t = '\\' :: 'b' :: t from rfl]
    exact parseStrAux_esc1 fuel acc t rfl
  by_cases h4 : c.toNat = 9
  · rw [char_eq_ofNat_toNat h4,
      show escChar (Char.ofNat 9) ++ t = '\\' :: 't' :: t from rfl]
    exact parseStrAux_esc1 fuel acc t rfl
  by_cases h5 : c.toNat = 10
  · rw [char_eq_ofNat_toNat h5,
      show escChar (Char.ofNat 10) ++ t = '\\' :: 'n' :: t from rfl]
    exact parseStrAux_esc1 fuel acc t rfl
  by_cases h6 : c.toNat = 12
  · rw [char_eq_ofNat_toNat h6,
      show escChar (Char.ofNat 12) ++ t = '\\' :: 'f' :: t from rfl]
    exact parseStrAux_esc1 fuel acc t rfl
  by_cases h7 : c.toNat = 13
  · rw [char_eq_ofNat_toNat h7,
      show escChar (Char.ofNat 13) ++ t = '\\' :: 'r' :: t from rfl]
    exact parseStrAux_esc1 fuel acc t rfl
  by_cases h8 : 32 ≤ c.toNat ∧ c.toNat ≤ 126
  · rw [show escChar c = [c] by simp [escChar, h1, h2, h3, h4, h5, h6, h7, h8]]
    exact parseStrAux_lit fuel acc t h1 h2 (by omega)
  by_cases h9 : c.toNat < 65536
  · exact parseStrAux_escB c fuel acc t h1 h2 h3 h4 h5 h6 h7 h8 h9
  · exact parseStrAux_escC c fuel acc t h1 h2 h3 h4 h5 h6 h7 h8 h9

theorem parseStrAux_enc : ∀ (cs : List Char) (fuel : Nat) (acc rest : List Char),
    cs.length < fuel →
    parseStrAux fuel acc ((cs.map escChar).flatten ++ '"' :: rest) =
      some (String.mk (acc.reverse ++ cs), rest) := by
  intro cs
  induction cs with
  | nil =>
    intro fuel acc rest h
    match fuel, h with
    | f + 1, _ => simp [parseStrAux]
  | cons c cs ih =>
    intro fuel acc rest h
    match fuel, h with
    | f + 1, h =>
      simp only [List.map_cons, List.flatten_cons, List.append_assoc]
      rw [parseStrAux_esc, ih f (c :: acc) rest (by simp at h; omega)]
      simp

theorem escChar_length (c : Char) : 1 ≤ (escChar c).length := by
  simp only [escChar, hex4]
  split_ifs <;> simp

theorem flatten_esc_length (cs : List Char) :
    cs.length ≤ ((cs.map escChar).flatten).length := by
  induction cs with
  | nil => simp
  | cons c cs ih =>
    simp only [List.map_cons, List.flatten_cons, List.length_append,
      List.length_cons]
    have := escChar_length c
    omega

theorem parseStr_enc (cs rest : List Char) :
    parseStr ((cs.map escChar).flatten ++ '"' :: rest) =
      some (String.mk cs, rest) := by
  rw [parseStr, parseStrAux_enc]
  · simp
  · have := flatten_esc_length cs
    simp only [List.length_append, List.length_cons]
    omega

theorem numSafe_head {rest : List Char} (hs : numSafe rest = true) :
    ∀ c t, rest = c :: t → isDigitCh c = false := by
  intro c t he
  subst he
  simp [numSafe] at hs
  exact hs.1.1.1

theorem numSafe_floatTail {rest : List Char} (hs : numSafe rest = true) :
    floatTail rest = false := by
  match rest with
  | [] => rfl
  | c :: t =>
    simp [numSafe] at hs
    obtain ⟨⟨⟨-, h2⟩, h3⟩, h4⟩ := hs
    simp [floatTail, h2, h3, h4]

theorem natChars_split (m : Nat) (rest : List Char)
    (hs : numSafe rest = true) :
    ∃ d ds, natChars m = d :: ds ∧
      (natChars m ++ rest).takeWhile isDigitCh = d :: ds ∧
      (natChars m ++ rest).dropWhile isDigitCh = rest ∧
      ¬(d = '0' ∧ ds ≠ []) ∧ digitsVal (d :: ds) = m := by
  obtain ⟨d, ds, hd⟩ := List.exists_cons_of_ne_nil (natChars_ne_nil m)
  have hall : ∀ c ∈ natChars m, isDigitCh c = true := natChars_digits m
  have htd := takeWhile_all_append (natChars m) rest hall (numSafe_head hs)
  refine ⟨d, ds, hd, ?_, htd.2, ?_, ?_⟩
  · rw [htd.1, hd]
  · by_cases hm : m = 0
    · subst hm
      have : natChars 0 = ['0'] := rfl
      rw [this] at hd
      rintro ⟨-, hne⟩
      injection hd with _ h2
      exact hne h2.symm
    · rintro ⟨hd0, -⟩
      exact natChars_head_ne_zero hm hd hd0
  · rw [← hd, digitsVal_natChars]

theorem parseNum_enc (n : Int) (rest : List Char) (hs : numSafe rest = true) :
    parseNum (intChars n ++ rest) = some (.num n, rest) := by
  match n with
  | .ofNat m =>
    obtain ⟨d, ds, hd, htake, hdrop, hlead, hval⟩ := natChars_split m rest hs
    have hdig : isDigitCh d = true := natChars_digits m d (hd ▸ by simp)
    have hminus : ¬(d = '-') := by
      apply char_ne_of_toNat
      have := digit_bounds hdig
      intro hc
      have h45 : ('-' : Char).toNat = 45 := rfl
      omega
    rw [show intChars (Int.ofNat m) ++ rest = d :: (ds ++ rest) by
      rw [intChars, hd]; simp]
    simp only [parseNum, if_neg hminus]
    rw [show d :: (ds ++ rest) = (natChars m) ++ rest by rw [hd]; simp]
    rw [htake, hdrop]
    simp only [if_neg hlead, numSafe_floatTail hs, Bool.false_eq_true,
      if_false, hval]
    simp
  | .negSucc m =>
    obtain ⟨d, ds, hd, htake, hdrop, hlead, hval⟩ := natChars_split (m + 1) rest hs
    rw [show intChars (Int.negSucc m) ++ rest = '-' :: (natChars (m + 1) ++ rest)
      by rw [intChars]; simp]
    simp only [parseNum, if_true]
    rw [htake, hdrop]
    simp only [if_neg hlead, numSafe_floatTail hs, Bool.false_eq_true,
      if_false, hval]
    simp only [Option.some.injEq, Prod.mk.injEq, Json.num.injEq, if_true,
      and_true]
    rw [Int.negSucc_eq]
    push_cast
    ring

theorem string_mk_data (s : String) : String.mk s.data = s := rfl

theorem parseVal_ws (f : Nat) (l : List Char) :
    parseVal f (' ' :: l) = parseVal f l := by
  match f with
  | 0 => rfl
  | f + 1 =>
    simp only [parseVal]
    rw [show skipWs (' ' :: l) = skipWs l from by simp [skipWs, isWsCh]]

theorem parseArrItems_ws (f : Nat) (l : List Char) :
    parseArrItems f (' ' :: l) = parseArrItems f l := by
  match f with
  | 0 => rfl
  | f + 1 =>
    simp only [parseArrItems]
    rw [parseVal_ws]

theorem parseObjItems_ws (f : Nat) (l : List Char) :
    parseObjItems f (' ' :: l) = parseObjItems f l := by
  match f with
  | 0 => rfl
  | f + 1 =>
    simp only [parseObjItems]
    rw [show skipWs (' ' :: l) = skipWs l from by simp [skipWs, isWsCh]]

theorem encVal_head (j : Json) :
    ∃ c t, encVal j = c :: t ∧ isWsCh c = false ∧ ¬c = ']' := by
  match j with
  | .null => exact ⟨'n', _, rfl, by decide, by decide⟩
  | .bool true => exact ⟨'t', _, rfl, by decide, by decide⟩
  | .bool false => exact ⟨'f', _, rfl, by decide, by decide⟩
  | .str s => exact ⟨'"', _, rfl, by decide, by decide⟩
  | .arr xs => exact ⟨'[', _, rfl, by decide, by decide⟩
  | .obj kvs => exact ⟨'{', _, rfl, by decide, by decide⟩
  | .num (.ofNat m) =>
    obtain ⟨d, ds, hd⟩ := List.exists_cons_of_ne_nil (natChars_ne_nil m)
    have hdig : isDigitCh d = true := natChars_digits m d (hd ▸ by simp)
    have hb := digit_bounds hdig
    refine ⟨d, ds, ?_, ?_, ?_⟩
    · rw [show encVal (Json.num (Int.ofNat m)) = natChars m from rfl, hd]
    · simp only [isWsCh]
      have h32 : ('\x20' : Char).toNat = 32 := rfl
      simp only [Bool.or_eq_false_iff]
      refine ⟨⟨⟨?_, ?_⟩, ?_⟩, ?_⟩ <;> simp <;> omega
    · apply char_ne_of_toNat
      have : (']' : Char).toNat = 93 := rfl
      omega
  | .num (.negSucc m) =>
    exact ⟨'-', _, rfl, by decide, by decide⟩

theorem parseVal_null (f : Nat) (rest : List Char) :
    parseVal (f + 1) ('n' :: 'u' :: 'l' :: 'l' :: rest) =
      some (.null, rest) := by
  rfl

theorem parseVal_true (f : Nat) (rest : List Char) :
    parseVal (f + 1) ('t' :: 'r' :: 'u' :: 'e' :: rest) =
      some (.bool true, rest) := by
  rfl

theorem parseVal_false (f : Nat) (rest : List Char) :
    parseVal (f + 1) ('f' :: 'a' :: 'l' :: 's' :: 'e' :: rest) =
      some (.bool false, rest) := by
  rfl

theorem parseVal_quote (f : Nat) (l : List Char) :
    parseVal (f + 1) ('"' :: l) =
      match parseStr l with
      | some (s, r) => some (.str s, r)
      | none => none := by
  rfl

theorem parseVal_arr_nil (f : Nat) (rest : List Char) :
    parseVal (f + 1) ('[' :: ']' :: rest) = some (.arr [], rest) := by
  rfl

theorem parseVal_obj_nil (f : Nat) (rest : List Char) :
    parseVal (f + 1) ('{' :: '}' :: rest) = some (.obj [], rest) := by
  rfl

theorem parseVal_lbracket (f : Nat) (c2 : Char) (r2 : List Char)
    (h : ¬c2 = ']') (hw : isWsCh c2 = false) :
    parseVal (f + 1) ('[' :: c2 :: r2) =
      match parseArrItems f (c2 :: r2) with
      | some (xs, r) => some (.arr xs, r)
      | none => none := by
  have h1 : skipWs ('[' :: c2 :: r2) = '[' :: c2 :: r2 := by
    simp [skipWs, isWsCh]
  have h2 : skipWs (c2 :: r2) = c2 :: r2 := skipWs_cons_not hw
  simp only [parseVal, h1, h2]
  simp [h]

theorem parseVal_lbrace (f : Nat) (c2 : Char) (r2 : List Char)
    (h : ¬c2 = '}') (hw : isWsCh c2 = false) :
    parseVal (f + 1) ('{' :: c2 :: r2) =
      match parseObjItems f (c2 :: r2) with
      | some (kvs, r) => some (.obj kvs, r)
      | none => none := by
  have h1 : skipWs ('{' :: c2 :: r2) = '{' :: c2 :: r2 := by
    simp [skipWs, isWsCh]
  have h2 : skipWs (c2 :: r2) = c2 :: r2 := skipWs_cons_not hw
  simp only [parseVal, h1, h2]
  simp [h]

theorem parseVal_num_head (f : Nat) (c : Char) (t : List Char)
    (h : c = '-' ∨ isDigitCh c = true) :
    parseVal (f + 1) (c :: t) = parseNum (c :: t) := by
  rcases h with h | h
  · subst h; rfl
  · have hb := digit_bounds h
    have hw : isWsCh c = false := by
      simp only [isWsCh, Bool.or_eq_false_iff]
      refine ⟨⟨⟨?_, ?_⟩, ?_⟩, ?_⟩ <;> simp <;> omega
    have c1 : ¬c = 'n' := char_ne_of_toNat (by
      have : ('n' : Char).toNat = 110 := rfl
      omega)
    have c2 : ¬c = 't' := char_ne_of_toNat (by
      have : ('t' : Char).toNat = 116 := rfl
      omega)
    have c3 : ¬c = 'f' := char_ne_of_toNat (by
      have : ('f' : Char).toNat = 102 := rfl
      omega)
    have c4 : ¬c = '"' := char_ne_of_toNat (by
      have : ('"' : Char).toNat = 34 := rfl
      omega)
    have c5 : ¬c = '[' := char_ne_of_toNat (by
      have : ('[' : Char).toNat = 91 := rfl
      omega)
    have c6 : ¬c = '{' := char_ne_of_toNat (by
      have : ('{' : Char).toNat = 123 := rfl
      omega)
    simp only [parseVal, skipWs_cons_not hw]
    rw [if_neg c1, if_neg c2, if_neg c3, if_neg c4, if_neg c5, if_neg c6,
      if_pos (Or.inr h)]

theorem parseObjItems_key (f : Nat) (l : List Char) :
    parseObjItems (f + 1) ('"' :: l) =
      match parseStr l with
      | none => none
      | some (k, cs2) =>
        match skipWs cs2 with
        | ':' :: cs3 =>
          match parseVal f cs3 with
          | none => none
          | some (v, cs4) =>
            match skipWs cs4 with
            | ',' :: cs5 =>
              match parseObjItems f cs5 with
              | some (kvs, r) => some ((k, v) :: kvs, r)
              | none => none
            | '}' :: cs5 => some ([(k, v)], cs5)
            | _ => none
        | _ => none := by
  rfl

theorem jsizeV_pos (j : Json) : 1 ≤ jsizeV j := by
  match j with
  | .null | .bool _ | .num _ | .str _ => simp [jsizeV]
  | .arr xs => simp [jsizeV]
  | .obj kvs => simp [jsizeV]

theorem arrStep_comma (f : Nat) (x : Json) (Z : List Char) :
    (match (some (x, ',' :: ' ' :: Z) : Option (Json × List Char)) with
     | none => none
     | some (v, r) =>
       match skipWs r with
       | ',' :: r2 =>
         match parseArrItems f r2 with
         | some (vs, r3) => some (v :: vs, r3)
         | none => none
       | ']' :: r2 => some ([v], r2)
       | _ => none) =
      match parseArrItems f (' ' :: Z) with
      | some (vs, r3) => some (x :: vs, r3)
      | none => none := rfl

set_option maxHeartbeats 3200000 in
theorem jsonRoundTrip : ∀ fuel : Nat,
    (∀ (j : Json) (rest : List Char), jsizeV j ≤ fuel → numSafe rest = true →
      parseVal fuel (encVal j ++ rest) = some (j, rest)) ∧
    (∀ (xs : List Json) (rest : List Char), xs ≠ [] → jsizeL xs ≤ fuel →
      parseArrItems fuel (encArrItems xs ++ ']' :: rest) = some (xs, rest)) ∧
    (∀ (kvs : List (String × Json)) (rest : List Char), kvs ≠ [] →
      jsizeO kvs ≤ fuel →
      parseObjItems fuel (encObjItems kvs ++ '}' :: rest) = some (kvs, rest)) := by
  intro fuel
  induction fuel with
  | zero =>
    refine ⟨?_, ?_, ?_⟩
    · intro j rest hsz _
      have := jsizeV_pos j
      omega
    · intro xs rest hne hsz
      match xs with
      | x :: t =>
        have h1 : jsizeL (x :: t) = 1 + jsizeV x + jsizeL t := rfl
        omega
    · intro kvs rest hne hsz
      match kvs with
      | (k, v) :: t =>
        have h1 : jsizeO ((k, v) :: t) = 1 + jsizeV v + jsizeO t := rfl
        omega
  | succ f ih =>
    obtain ⟨ihV, ihA, ihO⟩ := ih
    refine ⟨?_, ?_, ?_⟩
    · intro j rest hsz hsafe
      match j with
      | .null => exact parseVal_null f rest
      | .bool true => exact parseVal_true f rest
      | .bool false => exact parseVal_false f rest
      | .num (.ofNat m) =>
        obtain ⟨d, ds, hd⟩ := List.exists_cons_of_ne_nil (natChars_ne_nil m)
        have hdig : isDigitCh d = true := natChars_digits m d (hd ▸ by simp)
        have he : encVal (.num (.ofNat m)) ++ rest = d :: (ds ++ rest) := by
          rw [show encVal (.num (Int.ofNat m)) = natChars m from rfl, hd]
          simp
        rw [he, parseVal_num_head f d _ (Or.inr hdig),
          show d :: (ds ++ rest) = intChars (Int.ofNat m) ++ rest by
            rw [show intChars (Int.ofNat m) = natChars m from rfl, hd]; simp]
        exact parseNum_enc _ rest hsafe
      | .num (.negSucc m) =>
        have he : encVal (.num (.negSucc m)) ++ rest =
            '-' :: (natChars (m + 1) ++ rest) := by
          rw [show encVal (.num (Int.negSucc m)) = '-' :: natChars (m + 1)
            from rfl]
          simp
        rw [he, parseVal_num_head f '-' _ (Or.inl rfl),
          show '-' :: (natChars (m + 1) ++ rest) =
            intChars (Int.negSucc m) ++ rest by
            rw [show intChars (Int.negSucc m) = '-' :: natChars (m + 1)
              from rfl]; simp]
        exact parseNum_enc _ rest hsafe
      | .str s =>
        have he : encVal (.str s) ++ rest =
            '"' :: ((s.data.map escChar).flatten ++ '"' :: rest) := by
          rw [show encVal (.str s) =
            '"' :: ((s.data.map escChar).flatten ++ ['"']) from rfl]
          simp
        rw [he, parseVal_quote, parseStr_enc]
      | .arr [] => exact parseVal_arr_nil f rest
      | .arr (x :: xs) =>
        obtain ⟨c, t, he, hw, hnb⟩ := encVal_head x
        obtain ⟨u, hu⟩ : ∃ u, encArrItems (x :: xs) = encVal x ++ u := by
          match xs with
          | [] => exact ⟨[], by simp [encArrItems]⟩
          | y :: t2 => exact ⟨',' :: ' ' :: encArrItems (y :: t2), rfl⟩
        have h0 : encVal (.arr (x :: xs)) ++ rest =
            '[' :: (encArrItems (x :: xs) ++ ']' :: rest) := by
          rw [show encVal (.arr (x :: xs)) =
            '[' :: encArrItems (x :: xs) ++ [']'] from rfl]
          simp
        have hE : encArrItems (x :: xs) ++ ']' :: rest =
            c :: (t ++ (u ++ ']' :: rest)) := by
          rw [hu, he]
          simp
        rw [h0, hE, parseVal_lbracket f c _ hnb hw, ← hE,
          ihA (x :: xs) rest (by simp)
            (by have h9 : jsizeV (.arr (x :: xs)) = 1 + jsizeL (x :: xs) := rfl
                omega)]
      | .obj [] => exact parseVal_obj_nil f rest
      | .obj ((k, v) :: kvs) =>
        obtain ⟨u, hu⟩ : ∃ u, encObjItems ((k, v) :: kvs) =
            encString k ++ u := by
          match kvs with
          | [] => exact ⟨':' :: ' ' :: encVal v, rfl⟩
          | e :: t2 =>
            exact ⟨':' :: ' ' :: encVal v ++ ',' :: ' ' :: encObjItems (e :: t2),
              by simp [encObjItems]⟩
        have h0 : encVal (.obj ((k, v) :: kvs)) ++ rest =
            '{' :: (encObjItems ((k, v) :: kvs) ++ '}' :: rest) := by
          rw [show encVal (.obj ((k, v) :: kvs)) =
            '{' :: encObjItems ((k, v) :: kvs) ++ ['}'] from rfl]
          simp
        have hE : encObjItems ((k, v) :: kvs) ++ '}' :: rest =
            '"' :: (((k.data.map escChar).flatten ++ ['"']) ++
              (u ++ '}' :: rest)) := by
          rw [hu, show encString k =
            '"' :: ((k.data.map escChar).flatten ++ ['"']) from rfl]
          simp
        rw [h0, hE, parseVal_lbrace f '"' _ (by decide) (by decide), ← hE,
          ihO ((k, v) :: kvs) rest (by simp)
            (by have h9 : jsizeV (.obj ((k, v) :: kvs)) =
                  1 + jsizeO ((k, v) :: kvs) := rfl
                omega)]
    · intro xs rest hne hsz
      match xs with
      | [x] =>
        have hx : jsizeV x ≤ f := by
          have h0 : jsizeL [x] = 1 + jsizeV x + jsizeL [] := rfl
          have h0b : jsizeL ([] : List Json) = 0 := rfl
          omega
        have h1 : encArrItems [x] ++ ']' :: rest = encVal x ++ ']' :: rest := by
          rw [show encArrItems [x] = encVal x from rfl]
        simp only [parseArrItems]
        rw [h1, ihV x (']' :: rest) hx rfl]
        rfl
      | x :: y :: tail =>
        have h0 : jsizeL (x :: y :: tail) =
            1 + jsizeV x + jsizeL (y :: tail) := rfl
        have hx : jsizeV x ≤ f := by omega
        have htail : jsizeL (y :: tail) ≤ f := by omega
        have h1 : encArrItems (x :: y :: tail) ++ ']' :: rest =
            encVal x ++ (',' :: ' ' ::
              (encArrItems (y :: tail) ++ ']' :: rest)) := by
          rw [show encArrItems (x :: y :: tail) =
            encVal x ++ ',' :: ' ' :: encArrItems (y :: tail) from rfl]
          simp
        have hA : parseArrItems f (encArrItems (y :: tail) ++ ']' :: rest) =
            some (y :: tail, rest) := ihA (y :: tail) rest (by simp) htail
        simp only [parseArrItems]
        rw [h1, ihV x (',' :: ' ' ::
          (encArrItems (y :: tail) ++ ']' :: rest)) hx rfl]
        simp [skipWs, isWsCh, parseArrItems_ws, hA]
    · intro kvs rest hne hsz
      match kvs with
      | [(k, v)] =>
        have hv : jsizeV v ≤ f := by
          have h0 : jsizeO [(k, v)] = 1 + jsizeV v + jsizeO [] := rfl
          have h0b : jsizeO ([] : List (String × Json)) = 0 := rfl
          omega
        have h1 : encObjItems [(k, v)] ++ '}' :: rest =
            '"' :: ((k.data.map escChar).flatten ++ '"' ::
              (':' :: ' ' :: (encVal v ++ '}' :: rest))) := by
          rw [show encObjItems [(k, v)] =
            ('"' :: ((k.data.map escChar).flatten ++ ['"'])) ++
              ':' :: ' ' :: encVal v from rfl]
          simp
        rw [h1, parseObjItems_key, parseStr_enc]
        have h2 : parseVal f (' ' :: (encVal v ++ '}' :: rest)) =
            some (v, '}' :: rest) := by
          rw [parseVal_ws]
          exact ihV v ('}' :: rest) hv rfl
        simp only [string_mk_data]
        simp [skipWs, isWsCh, h2]
      | (k, v) :: e :: tail =>
        have h0 : jsizeO ((k, v) :: e :: tail) =
            1 + jsizeV v + jsizeO (e :: tail) := rfl
        have hv : jsizeV v ≤ f := by omega
        have htail : jsizeO (e :: tail) ≤ f := by omega
        have h1 : encObjItems ((k, v) :: e :: tail) ++ '}' :: rest =
            '"' :: ((k.data.map escChar).flatten ++ '"' ::
              (':' :: ' ' :: (encVal v ++ ',' :: ' ' ::
                (encObjItems (e :: tail) ++ '}' :: rest)))) := by
          rw [show encObjItems ((k, v) :: e :: tail) =
            ('"' :: ((k.data.map escChar).flatten ++ ['"'])) ++
              ':' :: ' ' :: encVal v ++ ',' :: ' ' ::
                encObjItems (e :: tail) from rfl]
          simp
        rw [h1, parseObjItems_key, parseStr_enc]
        have h2 : parseVal f (' ' :: (encVal v ++ ',' :: ' ' ::
            (encObjItems (e :: tail) ++ '}' :: rest))) =
            some (v, ',' :: ' ' :: (encObjItems (e :: tail) ++ '}' :: rest)) := by
          rw [parseVal_ws]
          exact ihV v (',' :: ' ' :: (encObjItems (e :: tail) ++ '}' :: rest))
            hv rfl
        have h3 : parseObjItems f (encObjItems (e :: tail) ++ '}' :: rest) =
            some (e :: tail, rest) := ihO (e :: tail) rest (by simp) htail
        simp only [string_mk_data]
        simp [skipWs, isWsCh, h2, parseObjItems_ws, h3]

theorem encLen : ∀ fuel : Nat,
    (∀ j : Json, jsizeV j ≤ fuel → jsizeV j ≤ (encVal j).length) ∧
    (∀ xs : List Json, jsizeL xs ≤ fuel →
      jsizeL xs ≤ (encArrItems xs).length + 1) ∧
    (∀ kvs : List (String × Json), jsizeO kvs ≤ fuel →
      jsizeO kvs ≤ (encObjItems kvs).length + 1) := by
  intro fuel
  induction fuel with
  | zero =>
    refine ⟨?_, ?_, ?_⟩
    · intro j hsz
      have := jsizeV_pos j
      omega
    · intro xs hsz
      match xs with
      | [] => simp [jsizeL]
      | x :: t =>
        have h1 : jsizeL (x :: t) = 1 + jsizeV x + jsizeL t := rfl
        have := jsizeV_pos x
        omega
    · intro kvs hsz
      match kvs with
      | [] => simp [jsizeO]
      | (k, v) :: t =>
        have h1 : jsizeO ((k, v) :: t) = 1 + jsizeV v + jsizeO t := rfl
        have := jsizeV_pos v
        omega
  | succ f ih =>
    obtain ⟨ihV, ihA, ihO⟩ := ih
    refine ⟨?_, ?_, ?_⟩
    · intro j hsz
      match j with
      | .null => simp [jsizeV, encVal]
      | .bool true => simp [jsizeV, encVal]
      | .bool false => simp [jsizeV, encVal]
      | .num n =>
        have h1 : jsizeV (.num n) = 1 := rfl
        match n with
        | .ofNat m =>
          have h2 : encVal (.num (Int.ofNat m)) = natChars m := rfl
          have h3 := List.length_pos.mpr (natChars_ne_nil m)
          rw [h1, h2]
          omega
        | .negSucc m =>
          have h2 : encVal (.num (Int.negSucc m)) =
            '-' :: natChars (m + 1) := rfl
          rw [h1, h2]
          simp
      | .str s =>
        have h1 : jsizeV (.str s) = 1 := rfl
        have h2 : encVal (.str s) =
          '"' :: ((s.data.map escChar).flatten ++ ['"']) := rfl
        rw [h1, h2]
        simp
      | .arr xs =>
        have h1 : jsizeV (.arr xs) = 1 + jsizeL xs := rfl
        have h2 : encVal (.arr xs) = '[' :: encArrItems xs ++ [']'] := rfl
        have h3 := ihA xs (by omega)
        rw [h1, h2]
        simp only [List.length_cons, List.length_append, List.length_cons,
          List.length_nil]
        omega
      | .obj kvs =>
        have h1 : jsizeV (.obj kvs) = 1 + jsizeO kvs := rfl
        have h2 : encVal (.obj kvs) = '{' :: encObjItems kvs ++ ['}'] := rfl
        have h3 := ihO kvs (by omega)
        rw [h1, h2]
        simp only [List.length_cons, List.length_append, List.length_cons,
          List.length_nil]
        omega
    · intro xs hsz
      match xs with
      | [] => simp [jsizeL]
      | [x] =>
        have h1 : jsizeL [x] = 1 + jsizeV x + jsizeL [] := rfl
        have h1b : jsizeL ([] : List Json) = 0 := rfl
        have h2 : encArrItems [x] = encVal x := rfl
        have h3 := ihV x (by omega)
        rw [h1, h2]
        omega
      | x :: y :: t =>
        have h1 : jsizeL (x :: y :: t) = 1 + jsizeV x + jsizeL (y :: t) := rfl
        have h2 : encArrItems (x :: y :: t) =
          encVal x ++ ',' :: ' ' :: encArrItems (y :: t) := rfl
        have h3 := ihV x (by omega)
        have h4 := ihA (y :: t) (by omega)
        rw [h1, h2]
        simp only [List.length_append, List.length_cons]
        omega
    · intro kvs hsz
      match kvs with
      | [] => simp [jsizeO]
      | [(k, v)] =>
        have h1 : jsizeO [(k, v)] = 1 + jsizeV v + jsizeO [] := rfl
        have h1b : jsizeO ([] : List (String × Json)) = 0 := rfl
        have h2 : encObjItems [(k, v)] =
          encString k ++ ':' :: ' ' :: encVal v := rfl
        have h3 := ihV v (by omega)
        rw [h1, h2]
        simp only [List.length_append, List.length_cons]
        omega
      | (k, v) :: e :: t =>
        have h1 : jsizeO ((k, v) :: e :: t) =
          1 + jsizeV v + jsizeO (e :: t) := rfl
        have h2 : encObjItems ((k, v) :: e :: t) =
          encString k ++ ':' :: ' ' :: encVal v ++ ',' :: ' ' ::
            encObjItems (e :: t) := rfl
        have h3 := ihV v (by omega)
        have h4 := ihO (e :: t) (by omega)
        rw [h1, h2]
        simp only [List.length_append, List.length_cons]
        omega

theorem jsonLoads_enc (j : Json) : jsonLoads (encVal j) = some j := by
  have hsz : jsizeV j ≤ (encVal j).length + 1 := by
    have := (encLen (jsizeV j)).1 j (le_refl _)
    omega
  have hrt := (jsonRoundTrip ((encVal j ++ []).length + 1)).1 j []
    (by simp only [List.append_nil]; omega) rfl
  rw [jsonLoads, show encVal j = encVal j ++ [] from by simp, hrt]
  rfl

theorem pyFindAux_not_mem {c : Char} :
    ∀ (l : List Char) (i : Nat), c ∉ l → pyFindAux c l i = none := by
  intro l
  induction l with
  | nil => intro i _; rfl
  | cons x xs ih =>
    intro i h
    simp only [List.mem_cons, not_or] at h
    simp only [pyFindAux,
      if_neg (show ¬(x = c) from fun he => h.1 he.symm)]
    exact ih (i + 1) h.2

theorem pyFindAux_append {c : Char} :
    ∀ (p : List Char) (t : List Char) (i : Nat), c ∉ p →
      pyFindAux c (p ++ c :: t) i = some (i + p.length) := by
  intro p
  induction p with
  | nil =>
    intro t i _
    simp [pyFindAux]
  | cons x xs ih =>
    intro t i h
    simp only [List.mem_cons, not_or] at h
    simp only [List.cons_append, pyFindAux,
      if_neg (show ¬(x = c) from fun he => h.1 he.symm)]
    refine Eq.trans (ih t (i + 1) h.2) ?_
    simp only [List.length_cons]
    congr 1
    omega

theorem pyFind_append {c : Char} (p t : List Char) (h : c ∉ p) :
    pyFind (p ++ c :: t) c = some p.length := by
  rw [pyFind, pyFindAux_append p t 0 h]
  simp

theorem pyFind_not_mem {c : Char} (l : List Char) (h : c ∉ l) :
    pyFind l c = none := pyFindAux_not_mem l 0 h

theorem pyRFind_last {c : Char} (E s : List Char) (h : c ∉ s) :
    pyRFind (E ++ c :: s) c = some E.length := by
  rw [pyRFind,
    show (E ++ c :: s).reverse = s.reverse ++ c :: E.reverse by simp,
    pyFind_append s.reverse E.reverse (by simpa using h)]
  simp only [List.length_reverse, List.length_append, List.length_cons]
  congr 1
  omega

theorem extractJson_embed (jv : List Char) (p s : List Char)
    (hjv : ∃ body, jv = '{' :: body ++ ['}'])
    (hp : '{' ∉ p) (hs : '}' ∉ s) :
    extractJson (p ++ jv ++ s) = some jv := by
  obtain ⟨body, rfl⟩ := hjv
  have h2 : pyFind (p ++ ('{' :: body ++ ['}']) ++ s) '{' = some p.length := by
    rw [show p ++ ('{' :: body ++ ['}']) ++ s =
      p ++ '{' :: (body ++ '}' :: s) by simp]
    exact pyFind_append p _ hp
  have h3 : (p ++ ('{' :: body ++ ['}']) ++ s).drop p.length =
      ('{' :: body) ++ '}' :: s := by
    rw [show p ++ ('{' :: body ++ ['}']) ++ s =
      p ++ (('{' :: body) ++ '}' :: s) by simp]
    exact List.drop_left p _
  have h4 : pyRFind (('{' :: body) ++ '}' :: s) '}' =
      some ('{' :: body).length := pyRFind_last _ _ hs
  have h5 : (('{' :: body) ++ '}' :: s).take (('{' :: body).length + 1) =
      '{' :: body ++ ['}'] := by
    rw [show ('{' :: body) ++ '}' :: s = (('{' :: body) ++ ['}']) ++ s by simp,
      show ('{' :: body).length + 1 = (('{' :: body) ++ ['}']).length by simp,
      List.take_left]
  simp only [extractJson, h2, h3, h4, h5]

theorem processResponse_embed (kvs : List (String × Json)) (p s : List Char)
    (hp : '{' ∉ p) (hs : '}' ∉ s) :
    processResponse (p ++ encVal (.obj kvs) ++ s) =
      checkErrors (.obj kvs) := by
  simp only [processResponse, extractJson_embed (encVal (.obj kvs)) p s
    ⟨encObjItems kvs, rfl⟩ hp hs, jsonLoads_enc (Json.obj kvs)]

theorem processResponse_no_brace (t : List Char) (h : '{' ∉ t) :
    processResponse t = .apiError := by
  simp only [processResponse, extractJson, pyFind_not_mem t h]

theorem processResponse_bad_json (t jt : List Char)
    (h1 : extractJson t = some jt) (h2 : jsonLoads jt = none) :
    processResponse t = .apiError := by
  simp only [processResponse, h1, h2]

theorem pyLookup_none_iff (kvs : List (String × Json)) (k : String) :
    pyLookup kvs k = none ↔ kvs.any (fun p => p.1 = k) = false := by
  induction kvs with
  | nil => simp [pyLookup]
  | cons e rest ih =>
    obtain ⟨k', v⟩ := e
    simp only [pyLookup, List.any_cons]
    match hr : pyLookup rest k with
    | some w =>
      simp only [Bool.or_eq_false_iff]
      constructor
      · intro h; exact absurd h (by simp)
      · intro h
        exact absurd (ih.mpr h.2) (by rw [hr]; simp)
    | none =>
      have h2 := ih.mp hr
      by_cases hk : k' = k
      · simp [hk, h2]
      · simp [hk, h2]

theorem pyLookup_some_any {kvs : List (String × Json)} {k : String} {v : Json}
    (h : pyLookup kvs k = some v) :
    kvs.any (fun p => p.1 = k) = true := by
  by_contra hc
  have := (pyLookup_none_iff kvs k).mpr (by
    cases hany : kvs.any (fun p => p.1 = k)
    · rfl
    · exact absurd hany hc)
  rw [this] at h
  cases h

theorem checkErrors_obj_api {kvs : List (String × Json)} {v : Json}
    (h : pyLookup kvs "error_api" = some v) :
    checkErrors (.obj kvs) = if pyEqInt v 6 then .authError else .apiError := by
  have hany := pyLookup_some_any h
  simp only [checkErrors,
    show pyContains (.obj kvs) "error_api" =
      some (kvs.any (fun p => p.1 = "error_api")) from rfl, hany,
    show pySubscript (.obj kvs) "error_api" = pyLookup kvs "error_api"
      from rfl, h]

theorem checkErrors_obj_device {kvs : List (String × Json)} {w : Json}
    (h1 : pyLookup kvs "error_api" = none)
    (h2 : pyLookup kvs "error_device" = some w) :
    checkErrors (.obj kvs) = if pyEqInt w 0 then .ok (.obj kvs) else .apiError := by
  have hany1 := (pyLookup_none_iff kvs "error_api").mp h1
  have hany2 := pyLookup_some_any h2
  simp only [checkErrors,
    show pyContains (.obj kvs) "error_api" =
      some (kvs.any (fun p => p.1 = "error_api")) from rfl, hany1,
    show pyContains (.obj kvs) "error_device" =
      some (kvs.any (fun p => p.1 = "error_device")) from rfl, hany2,
    show pySubscript (.obj kvs) "error_device" = pyLookup kvs "error_device"
      from rfl, h2]

theorem checkErrors_obj_clean {kvs : List (String × Json)}
    (h1 : pyLookup kvs "error_api" = none)
    (h2 : pyLookup kvs "error_device" = none) :
    checkErrors (.obj kvs) = .ok (.obj kvs) := by
  have hany1 := (pyLookup_none_iff kvs "error_api").mp h1
  have hany2 := (pyLookup_none_iff kvs "error_device").mp h2
  simp only [checkErrors,
    show pyContains (.obj kvs) "error_api" =
      some (kvs.any (fun p => p.1 = "error_api")) from rfl, hany1,
    show pyContains (.obj kvs) "error_device" =
      some (kvs.any (fun p => p.1 = "error_device")) from rfl, hany2]

theorem rawRequest_respond (text : List Char) :
    rawRequest (.respond text) = (processResponse text, true) := rfl

/-- C1: the shared response-classification step of `_raw_request`: an
`error_api` field of value 6 raises `NevotonAuthError`; any other
`error_api` value (including 0) raises `NevotonApiError`; with no
`error_api`, an `error_device` field with a non-zero value raises
`NevotonApiError`; only when neither condition holds does the payload
proceed.  The step is shared by `async_get_device_info`,
`async_get_state` and `async_set_parameter` alike: each surfaces the
classification verbatim, whatever other fields are present. -/
theorem C1_error_classification :
    (∀ (kvs : List (String × Json)) (v : Json),
      pyLookup kvs "error_api" = some v →
        checkErrors (.obj kvs) =
          (if pyEqInt v 6 then .authError else .apiError)) ∧
    (∀ (kvs : List (String × Json)) (w : Json),
      pyLookup kvs "error_api" = none →
      pyLookup kvs "error_device" = some w → pyEqInt w 0 = false →
        checkErrors (.obj kvs) = .apiError) ∧
    (∀ kvs : List (String × Json),
      pyLookup kvs "error_api" = none →
      (pyLookup kvs "error_device" = none ∨
        ∃ w, pyLookup kvs "error_device" = some w ∧ pyEqInt w 0 = true) →
        checkErrors (.obj kvs) = .ok (.obj kvs)) ∧
    (∀ (st : NevotonKomfortApi) (text : List Char) (p : String) (q : ℚ),
      (processResponse text = .authError →
        (asyncGetDeviceInfo st (.respond text)).2 = .authError ∧
        (asyncGetState st (.respond text)).2 = .authError ∧
        (asyncSetParameter st p q (.respond text)).2 = .authError) ∧
      (processResponse text = .apiError →
        (asyncGetDeviceInfo st (.respond text)).2 = .apiError ∧
        (asyncGetState st (.respond text)).2 = .apiError ∧
        (asyncSetParameter st p q (.respond text)).2 = .apiError)) := by
  refine ⟨?_, ?_, ?_, ?_⟩
  · intro kvs v h
    exact checkErrors_obj_api h
  · intro kvs w h1 h2 h3
    rw [checkErrors_obj_device h1 h2, h3]
    rfl
  · intro kvs h1 h2
    rcases h2 with h2 | ⟨w, h2, h3⟩
    · exact checkErrors_obj_clean h1 h2
    · rw [checkErrors_obj_device h1 h2, h3]
      rfl
  · intro st text p q
    constructor
    · intro h
      refine ⟨?_, ?_, ?_⟩ <;>
        simp [asyncGetDeviceInfo, asyncGetState, asyncSetParameter,
          rawRequest_respond, h, liftFail]
    · intro h
      refine ⟨?_, ?_, ?_⟩ <;>
        simp [asyncGetDeviceInfo, asyncGetState, asyncSetParameter,
          rawRequest_respond, h, liftFail]

/-- Witness for C1 at concrete payloads: `error_api = 6` classifies as
`AuthError`; `error_api = 0` as `ApiError`; non-zero `error_device` as
`ApiError`; a clean payload passes through. -/
theorem C1_error_classification_witness :
    checkErrors (.obj [("error_api", Json.num 6), ("x", Json.null)]) =
      .authError ∧
    checkErrors (.obj [("error_api", Json.num 0)]) = .apiError ∧
    checkErrors (.obj [("error_device", Json.num 3)]) = .apiError ∧
    checkErrors (.obj [("error_device", Json.num 0), ("y", Json.bool true)]) =
      .ok (.obj [("error_device", Json.num 0), ("y", Json.bool true)]) := by
  refine ⟨?_, ?_, ?_, ?_⟩
  · rw [C1_error_classification.1 [("error_api", Json.num 6), ("x", Json.null)]
      (Json.num 6) (by decide)]
    decide
  · rw [C1_error_classification.1 [("error_api", Json.num 0)]
      (Json.num 0) (by decide)]
    decide
  · exact C1_error_classification.2.1 [("error_device", Json.num 3)]
      (Json.num 3) (by decide) (by decide) (by decide)
  · exact C1_error_classification.2.2.1
      [("error_device", Json.num 0), ("y", Json.bool true)] (by decide)
      (Or.inr ⟨Json.num 0, by decide, by decide⟩)

/-- C2: payload extraction takes the substring from the first `{` to
the last `}` of the decoded response.  For every JSON object `O` (in
the float-free fragment) and every brace-free prefix and suffix,
extracting from `prefix ++ encode O ++ suffix` recovers exactly
`encode O`, and decoding it recovers exactly `O`.  A response with no
`{` raises `NevotonApiError`, and so does an extracted substring that
fails to decode. -/
theorem C2_extraction_roundtrip :
    (∀ (kvs : List (String × Json)) (p s : List Char),
      '{' ∉ p → '}' ∉ p → '{' ∉ s → '}' ∉ s →
        extractJson (p ++ encVal (.obj kvs) ++ s) =
          some (encVal (.obj kvs)) ∧
        jsonLoads (encVal (.obj kvs)) = some (.obj kvs)) ∧
    (∀ t : List Char, '{' ∉ t → processResponse t = .apiError) ∧
    (∀ (t jt : List Char), extractJson t = some jt → jsonLoads jt = none →
      processResponse t = .apiError) := by
  refine ⟨?_, processResponse_no_brace, processResponse_bad_json⟩
  intro kvs p s hp _ _ hs
  exact ⟨extractJson_embed _ p s ⟨encObjItems kvs, rfl⟩ hp hs,
    jsonLoads_enc _⟩

/-- Witness for C2: a response with a duplicated status-line preamble
and trailing garbage around `{"a": 1}` round-trips; a brace-free
response is `ApiError`. -/
theorem C2_extraction_roundtrip_witness :
    (extractJson ("HTTP/1.1 200 OK\r\nHTTP/1.1 200 OK\r\n\r\n".data ++
        encVal (.obj [("a", Json.num 1)]) ++ " trailing garbage".data) =
      some (encVal (.obj [("a", Json.num 1)])) ∧
      jsonLoads (encVal (.obj [("a", Json.num 1)])) =
        some (.obj [("a", Json.num 1)])) ∧
    processResponse "HTTP/1.1 200 OK".data = .apiError := by
  constructor
  · exact C2_extraction_roundtrip.1 [("a", Json.num 1)]
      "HTTP/1.1 200 OK\r\nHTTP/1.1 200 OK\r\n\r\n".data
      " trailing garbage".data (by decide) (by decide) (by decide) (by decide)
  · exact C2_extraction_roundtrip.2.1 "HTTP/1.1 200 OK".data (by decide)

theorem pyLookup_isSome_of_any {kvs : List (String × Json)} {k : String}
    (h : kvs.any (fun p => p.1 = k) = true) :
    ∃ v, pyLookup kvs k = some v := by
  match hl : pyLookup kvs k with
  | some v => exact ⟨v, rfl⟩
  | none =>
    rw [(pyLookup_none_iff kvs k).mp hl] at h
    cases h

theorem setParamResult_obj_absent {kvs : List (String × Json)}
    (h : pyLookup kvs "outputs" = none) :
    setParamResult (.obj kvs) = some false := by
  have hany := (pyLookup_none_iff _ _).mp h
  simp only [setParamResult,
    show pyContains (.obj kvs) "outputs" =
      some (kvs.any (fun p => p.1 = "outputs")) from rfl, hany]

theorem setParamResult_obj_out {kvs out : List (String × Json)}
    (h : pyLookup kvs "outputs" = some (.obj out)) :
    setParamResult (.obj kvs) =
      some (pyEqInt ((pyLookup out "error_ch").getD (.num 1)) 0) := by
  have hany := pyLookup_some_any h
  simp only [setParamResult,
    show pyContains (.obj kvs) "outputs" =
      some (kvs.any (fun p => p.1 = "outputs")) from rfl, hany,
    show pySubscript (.obj kvs) "outputs" = pyLookup kvs "outputs" from rfl, h,
    show pyGetMethod (.obj out) "error_ch" (.num 1) =
      some ((pyLookup out "error_ch").getD (.num 1)) from rfl]

theorem asyncSetParameter_ok (st : NevotonKomfortApi) (p : String) (q : ℚ)
    (text : List Char) (data : Json) (h : processResponse text = .ok data) :
    (asyncSetParameter st p q (.respond text)).2 =
      (match setParamResult data with
       | some b => .ok b
       | none => .pyExn) := by
  simp [asyncSetParameter, rawRequest_respond, h]

theorem setParamResult_obj_nonobj {kvs : List (String × Json)} {ov : Json}
    (h : pyLookup kvs "outputs" = some ov) (hno : ∀ o, ov ≠ Json.obj o) :
    setParamResult (.obj kvs) = none := by
  have hany := pyLookup_some_any h
  simp only [setParamResult,
    show pyContains (.obj kvs) "outputs" =
      some (kvs.any (fun p => p.1 = "outputs")) from rfl, hany,
    show pySubscript (.obj kvs) "outputs" = pyLookup kvs "outputs" from rfl, h]
  match ov, hno with
  | .null, _ => rfl
  | .bool _, _ => rfl
  | .num _, _ => rfl
  | .str _, _ => rfl
  | .arr _, _ => rfl
  | .obj o, hno => exact absurd rfl (hno o)

/-- C3: for a payload that passes the shared error-classification step,
`async_set_parameter` returns true exactly when the payload's `outputs`
section has `error_ch` value 0; it returns false, without raising, when
`error_ch` has any other value, when `error_ch` is absent, or when the
`outputs` section is absent. -/
theorem C3_set_parameter_ack :
    ∀ (st : NevotonKomfortApi) (p : String) (q : ℚ) (text : List Char)
      (kvs : List (String × Json)),
      processResponse text = .ok (.obj kvs) →
      (∀ out, pyLookup kvs "outputs" = some (.obj out) →
        (asyncSetParameter st p q (.respond text)).2 =
          .ok (pyEqInt ((pyLookup out "error_ch").getD (.num 1)) 0)) ∧
      (pyLookup kvs "outputs" = none →
        (asyncSetParameter st p q (.respond text)).2 = .ok false) ∧
      ((asyncSetParameter st p q (.respond text)).2 = .ok true →
        ∃ out v, pyLookup kvs "outputs" = some (.obj out) ∧
          pyLookup out "error_ch" = some v ∧ pyEqInt v 0 = true) := by
  intro st p q text kvs h
  refine ⟨?_, ?_, ?_⟩
  · intro out hout
    rw [asyncSetParameter_ok st p q text _ h, setParamResult_obj_out hout]
  · intro habs
    rw [asyncSetParameter_ok st p q text _ h, setParamResult_obj_absent habs]
  · intro htrue
    match hov : pyLookup kvs "outputs" with
    | none =>
      rw [asyncSetParameter_ok st p q text _ h,
        setParamResult_obj_absent hov] at htrue
      simp at htrue
    | some ov =>
      by_cases hobj : ∃ o, ov = Json.obj o
      · obtain ⟨o, rfl⟩ := hobj
        rw [asyncSetParameter_ok st p q text _ h,
          setParamResult_obj_out hov] at htrue
        match hch : pyLookup o "error_ch" with
        | none =>
          rw [hch] at htrue
          simp [pyEqInt] at htrue
        | some v =>
          rw [hch] at htrue
          simp only [Option.getD_some] at htrue
          have hv : pyEqInt v 0 = true := by
            by_contra hc
            rw [Bool.not_eq_true] at hc
            rw [hc] at htrue
            simp at htrue
          exact ⟨o, v, rfl, hch, hv⟩
      · have hno : ∀ o, ov ≠ Json.obj o := fun o he => hobj ⟨o, he⟩
        rw [asyncSetParameter_ok st p q text _ h,
          setParamResult_obj_nonobj hov hno] at htrue
        simp at htrue

/-- Witness for C3: against `{"outputs": {"error_ch": 0}}` the write
acknowledgement is true; against `{"outputs": {"error_ch": 1}}` and
against a response with no `outputs` section it is false. -/
theorem C3_set_parameter_ack_witness :
    (asyncSetParameter (initApi "h" "pw") "Heat_switch" 1
      (.respond "\x7b\"outputs\": \x7b\"error_ch\": 0\x7d\x7d".data)).2 = .ok true ∧
    (asyncSetParameter (initApi "h" "pw") "Heat_switch" 1
      (.respond "\x7b\"outputs\": \x7b\"error_ch\": 1\x7d\x7d".data)).2 = .ok false ∧
    (asyncSetParameter (initApi "h" "pw") "Heat_switch" 1
      (.respond "\x7b\"done\": true\x7d".data)).2 = .ok false := by
  refine ⟨?_, ?_, ?_⟩
  · rw [(C3_set_parameter_ack (initApi "h" "pw") "Heat_switch" 1
      "\x7b\"outputs\": \x7b\"error_ch\": 0\x7d\x7d".data
      [("outputs", .obj [("error_ch", .num 0)])] (by decide)).1
      [("error_ch", Json.num 0)] (by decide)]
    decide
  · rw [(C3_set_parameter_ack (initApi "h" "pw") "Heat_switch" 1
      "\x7b\"outputs\": \x7b\"error_ch\": 1\x7d\x7d".data
      [("outputs", .obj [("error_ch", .num 1)])] (by decide)).1
      [("error_ch", Json.num 1)] (by decide)]
    decide
  · exact (C3_set_parameter_ack (initApi "h" "pw") "Heat_switch" 1
      "\x7b\"done\": true\x7d".data [("done", .bool true)] (by decide)).2.1
      (by decide)

theorem getStateResult_no_inputs {kvs : List (String × Json)}
    (h : pyLookup kvs "inputs" = none) :
    getStateResult (.obj kvs) = some (.obj []) := by
  have hany := (pyLookup_none_iff _ _).mp h
  simp only [getStateResult,
    show pyContains (.obj kvs) "inputs" =
      some (kvs.any (fun p => p.1 = "inputs")) from rfl, hany]

theorem getStateResult_no_data {kvs ikvs : List (String × Json)}
    (h1 : pyLookup kvs "inputs" = some (.obj ikvs))
    (h2 : pyLookup ikvs "data" = none) :
    getStateResult (.obj kvs) = some (.obj []) := by
  have hany1 := pyLookup_some_any h1
  have hany2 := (pyLookup_none_iff _ _).mp h2
  simp only [getStateResult,
    show pyContains (.obj kvs) "inputs" =
      some (kvs.any (fun p => p.1 = "inputs")) from rfl, hany1,
    show pySubscript (.obj kvs) "inputs" = pyLookup kvs "inputs" from rfl, h1,
    show pyContains (.obj ikvs) "data" =
      some (ikvs.any (fun p => p.1 = "data")) from rfl, hany2]

theorem getStateResult_empty_data {kvs ikvs : List (String × Json)}
    (h1 : pyLookup kvs "inputs" = some (.obj ikvs))
    (h2 : pyLookup ikvs "data" = some (.arr [])) :
    getStateResult (.obj kvs) = some (.obj []) := by
  have hany1 := pyLookup_some_any h1
  have hany2 := pyLookup_some_any h2
  simp only [getStateResult,
    show pyContains (.obj kvs) "inputs" =
      some (kvs.any (fun p => p.1 = "inputs")) from rfl, hany1,
    show pySubscript (.obj kvs) "inputs" = pyLookup kvs "inputs" from rfl, h1,
    show pyContains (.obj ikvs) "data" =
      some (ikvs.any (fun p => p.1 = "data")) from rfl, hany2,
    show pySubscript (.obj ikvs) "data" = pyLookup ikvs "data" from rfl, h2,
    show pyTruthy (.arr []) = false from rfl]
  rfl

theorem getStateResult_first {kvs ikvs ekvs : List (String × Json)}
    {restL : List Json}
    (h1 : pyLookup kvs "inputs" = some (.obj ikvs))
    (h2 : pyLookup ikvs "data" = some (.arr (Json.obj ekvs :: restL))) :
    getStateResult (.obj kvs) =
      some ((pyLookup ekvs "value").getD (.obj [])) := by
  have hany1 := pyLookup_some_any h1
  have hany2 := pyLookup_some_any h2
  simp only [getStateResult,
    show pyContains (.obj kvs) "inputs" =
      some (kvs.any (fun p => p.1 = "inputs")) from rfl, hany1,
    show pySubscript (.obj kvs) "inputs" = pyLookup kvs "inputs" from rfl, h1,
    show pyContains (.obj ikvs) "data" =
      some (ikvs.any (fun p => p.1 = "data")) from rfl, hany2,
    show pySubscript (.obj ikvs) "data" = pyLookup ikvs "data" from rfl, h2,
    show pyTruthy (.arr (Json.obj ekvs :: restL)) = true from rfl,
    show pyLen (.arr (Json.obj ekvs :: restL)) = some (restL.length + 1)
      from rfl,
    show pyIndexZero (.arr (Json.obj ekvs :: restL)) = some (.obj ekvs)
      from rfl,
    show pyGetMethod (.obj ekvs) "value" (.obj []) =
      some ((pyLookup ekvs "value").getD (.obj [])) from rfl]
  simp

theorem asyncGetState_ok (st : NevotonKomfortApi) (text : List Char)
    (data : Json) (h : processResponse text = .ok data) :
    (asyncGetState st (.respond text)).2 =
      (match getStateResult data with
       | some m => .ok m
       | none => .pyExn) := by
  simp [asyncGetState, rawRequest_respond, h]

/-- C4: for a payload that passes the shared error-classification step
but lacks the `inputs.data` nesting (no `inputs` key, no `data` key
under it, or an empty `data` list), `async_get_state` returns an empty
mapping rather than raising. -/
theorem C4_get_state_missing_nesting :
    ∀ (st : NevotonKomfortApi) (text : List Char)
      (kvs : List (String × Json)),
      processResponse text = .ok (.obj kvs) →
      (pyLookup kvs "inputs" = none →
        (asyncGetState st (.respond text)).2 = .ok (.obj [])) ∧
      (∀ ikvs, pyLookup kvs "inputs" = some (.obj ikvs) →
        (pyLookup ikvs "data" = none →
          (asyncGetState st (.respond text)).2 = .ok (.obj [])) ∧
        (pyLookup ikvs "data" = some (.arr []) →
          (asyncGetState st (.respond text)).2 = .ok (.obj []))) := by
  intro st text kvs h
  refine ⟨?_, ?_⟩
  · intro habs
    rw [asyncGetState_ok st text _ h, getStateResult_no_inputs habs]
  · intro ikvs hik
    refine ⟨?_, ?_⟩
    · intro hnd
      rw [asyncGetState_ok st text _ h, getStateResult_no_data hik hnd]
    · intro hed
      rw [asyncGetState_ok st text _ h, getStateResult_empty_data hik hed]

/-- Witness for C4: payloads with no `inputs` key, with `inputs` but no
`data` key, and with an empty `data` list all yield the empty
mapping. -/
theorem C4_get_state_missing_nesting_witness :
    (asyncGetState (initApi "h" "pw")
      (.respond "\x7b\"ok\": 1\x7d".data)).2 = .ok (.obj []) ∧
    (asyncGetState (initApi "h" "pw")
      (.respond "\x7b\"inputs\": \x7b\"x\": 1\x7d\x7d".data)).2 = .ok (.obj []) ∧
    (asyncGetState (initApi "h" "pw")
      (.respond "\x7b\"inputs\": \x7b\"data\": []\x7d\x7d".data)).2 = .ok (.obj []) := by
  refine ⟨?_, ?_, ?_⟩
  · exact (C4_get_state_missing_nesting (initApi "h" "pw") "\x7b\"ok\": 1\x7d".data
      [("ok", .num 1)] (by decide)).1 (by decide)
  · exact ((C4_get_state_missing_nesting (initApi "h" "pw")
      "\x7b\"inputs\": \x7b\"x\": 1\x7d\x7d".data
      [("inputs", .obj [("x", .num 1)])] (by decide)).2
      [("x", Json.num 1)] (by decide)).1 (by decide)
  · exact ((C4_get_state_missing_nesting (initApi "h" "pw")
      "\x7b\"inputs\": \x7b\"data\": []\x7d\x7d".data
      [("inputs", .obj [("data", .arr [])])] (by decide)).2
      [("data", Json.arr [])] (by decide)).2 (by decide)

/-- C10: when `inputs.data` is present and non-empty, `async_get_state`
returns only the `value` mapping of the first list element, ignoring
all later elements; a first element without a `value` key yields the
empty mapping rather than raising. -/
theorem C10_get_state_first_element :
    ∀ (st : NevotonKomfortApi) (text : List Char)
      (kvs ikvs ekvs : List (String × Json)) (restL : List Json),
      processResponse text = .ok (.obj kvs) →
      pyLookup kvs "inputs" = some (.obj ikvs) →
      pyLookup ikvs "data" = some (.arr (Json.obj ekvs :: restL)) →
      (asyncGetState st (.respond text)).2 =
        .ok ((pyLookup ekvs "value").getD (.obj [])) ∧
      (pyLookup ekvs "value" = none →
        (asyncGetState st (.respond text)).2 = .ok (.obj [])) := by
  intro st text kvs ikvs ekvs restL h h1 h2
  constructor
  · rw [asyncGetState_ok st text _ h, getStateResult_first h1 h2]
  · intro hnv
    rw [asyncGetState_ok st text _ h, getStateResult_first h1 h2, hnv]
    rfl

/-- Witness for C10: with two `data` elements the first element's
`value` mapping is returned and the second is ignored; a first element
with no `value` key yields the empty mapping. -/
theorem C10_get_state_first_element_witness :
    (asyncGetState (initApi "h" "pw") (.respond
      "\x7b\"inputs\": \x7b\"data\": [\x7b\"value\": \x7b\"T\": 55\x7d\x7d, \x7b\"value\": \x7b\"T\": 99\x7d\x7d]\x7d\x7d".data)).2 =
      .ok (.obj [("T", .num 55)]) ∧
    (asyncGetState (initApi "h" "pw") (.respond
      "\x7b\"inputs\": \x7b\"data\": [\x7b\"x\": 1\x7d]\x7d\x7d".data)).2 = .ok (.obj []) := by
  constructor
  · rw [(C10_get_state_first_element (initApi "h" "pw")
      "\x7b\"inputs\": \x7b\"data\": [\x7b\"value\": \x7b\"T\": 55\x7d\x7d, \x7b\"value\": \x7b\"T\": 99\x7d\x7d]\x7d\x7d".data
      [("inputs", .obj [("data", .arr [.obj [("value", .obj [("T", .num 55)])],
        .obj [("value", .obj [("T", .num 99)])]])])]
      [("data", .arr [.obj [("value", .obj [("T", .num 55)])],
        .obj [("value", .obj [("T", .num 99)])]])]
      [("value", .obj [("T", .num 55)])]
      [.obj [("value", .obj [("T", .num 99)])]]
      (by decide) (by decide) (by decide)).1]
    decide
  · exact (C10_get_state_first_element (initApi "h" "pw")
      "\x7b\"inputs\": \x7b\"data\": [\x7b\"x\": 1\x7d]\x7d\x7d".data
      [("inputs", .obj [("data", .arr [.obj [("x", .num 1)]])])]
      [("data", .arr [.obj [("x", .num 1)]])]
      [("x", .num 1)] []
      (by decide) (by decide) (by decide)).2 (by decide)

theorem pyInt_trunc (q : ℚ) : pyInt q = if 0 ≤ q then ⌊q⌋ else ⌈q⌉ := by
  by_cases h : 0 ≤ q
  · rw [if_pos h, Rat.floor_def]
    exact Int.tdiv_eq_ediv (Rat.num_nonneg.mpr h) (by positivity)
  · rw [if_neg h]
    have hq : ⌈q⌉ = -⌊-q⌋ := by rw [Int.floor_neg]; ring
    rw [hq, Rat.floor_def]
    have hnum : (-q).num = -q.num := Rat.neg_num q
    have hden : ((-q).den : Int) = (q.den : Int) := by rw [Rat.neg_den]
    rw [hnum, hden]
    have ht : q.num.tdiv q.den = -((-q.num).tdiv q.den) := by
      rw [Int.neg_tdiv]; ring
    rw [pyInt, ht]
    congr 1
    exact Int.tdiv_eq_ediv
      (by have := Rat.num_nonneg.mpr (le_of_lt (neg_pos.mpr (lt_of_not_le h)))
          rwa [hnum] at this)
      (by positivity)

theorem intChars_shape (i : Int) :
    ∀ c ∈ intChars i, c = '-' ∨ isDigitCh c = true := by
  intro c hc
  cases i with
  | ofNat n => exact Or.inr (natChars_digits n c hc)
  | negSucc m =>
    simp only [intChars, List.mem_cons] at hc
    rcases hc with h | h
    · exact Or.inl h
    · exact Or.inr (natChars_digits _ c h)

/-- C5: the `value` query parameter transmitted by `async_set_parameter`
is the decimal rendering of `int(value)`, which truncates toward zero
(floor for non-negative arguments, ceiling for negative ones, the
identity on integers); its characters are digits with at most a leading
sign, never a fractional notation. -/
theorem C5_value_integer_truncation :
    ∀ (parameter : String) (value : ℚ),
      (setParamParams parameter value).lookup "value" =
        some (String.mk (intChars (pyInt value))) ∧
      pyInt value = (if 0 ≤ value then ⌊value⌋ else ⌈value⌉) ∧
      (∀ n : ℤ, value = (n : ℚ) → pyInt value = n) ∧
      (∀ c ∈ intChars (pyInt value), c = '-' ∨ isDigitCh c = true) := by
  intro parameter value
  refine ⟨rfl, pyInt_trunc value, ?_, intChars_shape _⟩
  intro n hn
  subst hn
  simp [pyInt, Rat.num_intCast, Rat.den_intCast]

/-- Witness for C5: `int(21) = 21` and the rendered characters are
digits. -/
theorem C5_value_integer_truncation_witness :
    pyInt ((21 : ℤ) : ℚ) = 21 ∧ ('2' = '-' ∨ isDigitCh '2' = true) := by
  have h := C5_value_integer_truncation "Heat_switch" ((21 : ℤ) : ℚ)
  exact ⟨h.2.2.1 21 rfl, h.2.2.2 '2' (by decide)⟩

theorem joinAmp_last (l : List String) (s : String) :
    ∃ pre : String, joinAmp (l ++ [s]) = pre ++ s := by
  induction l with
  | nil => exact ⟨"", by simp [joinAmp]⟩
  | cons x xs ih =>
    cases xs with
    | nil => exact ⟨x ++ "&", by simp [joinAmp, String.append_assoc]⟩
    | cons y ys =>
      obtain ⟨pre, hpre⟩ := ih
      refine ⟨x ++ "&" ++ pre, ?_⟩
      rw [show joinAmp ((x :: y :: ys) ++ [s]) =
        x ++ "&" ++ joinAmp ((y :: ys) ++ [s]) from rfl, hpre]
      simp [String.append_assoc]

theorem dictAssign_absent {d : List (String × String)} {k v : String}
    (h : d.all (fun p => !(p.1 == k)) = true) :
    dictAssign d k v = d ++ [(k, v)] := by
  have hany : (d.any fun p => decide (p.1 = k)) = false := by
    rw [List.any_eq_false]
    intro p hp
    have := List.all_eq_true.mp h p hp
    simpa using this
  rw [dictAssign, if_neg (by simp [hany])]

theorem buildUrl_hash_last {params : List (String × String)}
    (h : params.all (fun p => !(p.1 == "hash")) = true) (e hash : String) :
    buildUrl e params hash =
      e ++ "?" ++ joinAmp (params.map (fun p => p.1 ++ "=" ++ p.2) ++
        ["hash=" ++ hash]) := by
  rw [buildUrl, dictAssign_absent h, List.map_append]
  rfl

/-- C6: none of the three operations' parameter sets contains a `hash`
key, and for any parameter set without one, `_build_url` serializes the
operation-specific parameters first and appends the authentication
digest as the final `hash=digest` query parameter. -/
theorem C6_hash_appended_last :
    ∀ (e hash parameter : String) (value : ℚ)
      (params : List (String × String)),
      deviceInfoParams.all (fun p => !(p.1 == "hash")) = true ∧
      getStateParams.all (fun p => !(p.1 == "hash")) = true ∧
      (setParamParams parameter value).all
        (fun p => !(p.1 == "hash")) = true ∧
      (params.all (fun p => !(p.1 == "hash")) = true →
        buildUrl e params hash =
          e ++ "?" ++ joinAmp (params.map (fun p => p.1 ++ "=" ++ p.2) ++
            ["hash=" ++ hash]) ∧
        ∃ pre : String, buildUrl e params hash = pre ++ ("hash=" ++ hash)) := by
  intro e hash parameter value params
  refine ⟨rfl, rfl, rfl, ?_⟩
  intro h
  refine ⟨buildUrl_hash_last h e hash, ?_⟩
  obtain ⟨pre, hpre⟩ :=
    joinAmp_last (params.map (fun p => p.1 ++ "=" ++ p.2)) ("hash=" ++ hash)
  refine ⟨e ++ "?" ++ pre, ?_⟩
  rw [buildUrl_hash_last h e hash, hpre]
  simp [String.append_assoc]

/-- Witness for C6: the state query serializes with the digest last. -/
theorem C6_hash_appended_last_witness :
    buildUrl "/get/m2m/inputs" getStateParams "abc" =
      "/get/m2m/inputs?type=specific&number=All&hash=abc" := by
  rw [((C6_hash_appended_last "/get/m2m/inputs" "abc" "p" ((0 : ℤ) : ℚ)
    getStateParams).2.2.2 (by decide)).1]
  rfl

/-- C7: whatever the network does, the `finally` block closes the
socket; and when the transport fails (timeout, refusal or reset) every
operation surfaces `NevotonConnectionError` — never an auth or API
error — leaving the client state unchanged. -/
theorem C7_transport_failure :
    ∀ (st : NevotonKomfortApi) (parameter : String) (value : ℚ)
      (b : NetBehavior),
      (syncRequest b).2 = true ∧
      (b = .timedOut ∨ b = .sockFail →
        rawRequest b = (.connError, true) ∧
        asyncGetDeviceInfo st b = (st, .connError) ∧
        asyncGetState st b = (st, .connError) ∧
        asyncSetParameter st parameter value b = (st, .connError)) := by
  intro st parameter value b
  refine ⟨rfl, ?_⟩
  intro h
  rcases h with rfl | rfl <;> exact ⟨rfl, rfl, rfl, rfl⟩

/-- Witness for C7: a timeout and a socket error both yield
`connError` with the socket closed. -/
theorem C7_transport_failure_witness :
    rawRequest .timedOut = (.connError, true) ∧
    asyncGetState (initApi "h" "pw") .sockFail =
      (initApi "h" "pw", .connError) :=
  ⟨((C7_transport_failure (initApi "h" "pw") "p" ((0 : ℤ) : ℚ)
      .timedOut).2 (Or.inl rfl)).1,
   ((C7_transport_failure (initApi "h" "pw") "p" ((0 : ℤ) : ℚ)
      .sockFail).2 (Or.inr rfl)).2.2.1⟩

set_option maxRecDepth 10000 in
theorem sha1_abc_vector :
    hashPassword "abc" = "a9993e364706816aba3e25717850c26c9cd0d89d" := by
  decide

theorem applyCall_password_hash (st : NevotonKomfortApi) (c : ApiCall) :
    (applyCall st c).password_hash = st.password_hash := by
  cases c with
  | getDeviceInfo b =>
    cases hr : (rawRequest b).1 <;> simp [applyCall, asyncGetDeviceInfo, hr]
  | getState b => rfl
  | setParameter p v b => rfl

theorem runCalls_password_hash (st : NevotonKomfortApi) (cs : List ApiCall) :
    (runCalls st cs).password_hash = st.password_hash := by
  induction cs generalizing st with
  | nil => rfl
  | cons c cs ih =>
    rw [runCalls, List.foldl_cons,
      show List.foldl applyCall (applyCall st c) cs =
        runCalls (applyCall st c) cs from rfl,
      ih, applyCall_password_hash]

/-- C8: the stored digest is the hexadecimal SHA-1 of the secret's
UTF-8 bytes, determined by the secret alone (host-independent), equal
for any two clients built from the same secret, never changed by any
sequence of calls, and matching the standard SHA-1 test vector. -/
theorem C8_digest_deterministic :
    ∀ (host1 host2 password : String) (cs : List ApiCall),
      (initApi host1 password).password_hash =
        (initApi host2 password).password_hash ∧
      (initApi host1 password).password_hash =
        sha1Hex (utf8Bytes password) ∧
      (runCalls (initApi host1 password) cs).password_hash =
        (initApi host1 password).password_hash ∧
      hashPassword "abc" = "a9993e364706816aba3e25717850c26c9cd0d89d" := by
  intro host1 host2 password cs
  exact ⟨rfl, rfl, runCalls_password_hash _ _, sha1_abc_vector⟩


/-- C9: before any successful `async_get_device_info` the four
accessors return `None`; a successful call stores exactly the returned
payload; a call that raises, and every `async_get_state` /
`async_set_parameter` call, leaves the cached device info unchanged. -/
theorem C9_device_info_caching :
    ∀ (host password parameter : String) (value : ℚ)
      (st : NevotonKomfortApi) (b : NetBehavior) (data : Json),
      deviceIdAcc (initApi host password) = some .null ∧
      deviceMacAcc (initApi host password) = some .null ∧
      firmwareVersionAcc (initApi host password) = some .null ∧
      modelNameAcc (initApi host password) = some .null ∧
      ((rawRequest b).1 = .ok data →
        asyncGetDeviceInfo st b =
          ({ st with device_info := some data }, .ok data)) ∧
      ((∀ d : Json, (asyncGetDeviceInfo st b).2 ≠ .ok d) →
        (asyncGetDeviceInfo st b).1 = st) ∧
      (asyncGetState st b).1 = st ∧
      (asyncSetParameter st parameter value b).1 = st := by
  intro host password parameter value st b data
  refine ⟨rfl, rfl, rfl, rfl, ?_, ?_, rfl, rfl⟩
  · intro h
    simp [asyncGetDeviceInfo, h]
  · intro h
    cases hr : (rawRequest b).1 with
    | ok d => exact absurd (by simp [asyncGetDeviceInfo, hr]) (h d)
    | authError => simp [asyncGetDeviceInfo, hr]
    | apiError => simp [asyncGetDeviceInfo, hr]
    | connError => simp [asyncGetDeviceInfo, hr]
    | pyExn => simp [asyncGetDeviceInfo, hr]

/-- Witness for C9: a successful device-info call stores exactly its
payload; a timed-out one leaves the fresh client unchanged. -/
theorem C9_device_info_caching_witness :
    asyncGetDeviceInfo (initApi "h" "pw") (.respond "\x7b\"fw\": \"1\"\x7d".data) =
      ({ initApi "h" "pw" with device_info := some (.obj [("fw", .str "1")]) },
        .ok (.obj [("fw", .str "1")])) ∧
    (asyncGetDeviceInfo (initApi "h" "pw") .timedOut).1 =
      initApi "h" "pw" := by
  constructor
  · exact (C9_device_info_caching "h" "pw" "p" ((0 : ℤ) : ℚ)
      (initApi "h" "pw") (.respond "\x7b\"fw\": \"1\"\x7d".data)
      (.obj [("fw", .str "1")])).2.2.2.2.1 (by decide)
  · exact (C9_device_info_caching "h" "pw" "p" ((0 : ℤ) : ℚ)
      (initApi "h" "pw") .timedOut (.obj [])).2.2.2.2.2.1
      (by intro d h
          simp [asyncGetDeviceInfo, rawRequest, syncRequest, syncBody,
            liftFail] at h)
